import Mathlib

/-! Script manager: process execution and monitoring

A shallow embedding of `src/src/script_manager.c` (with the constants of
`src/src/script_manager.h` and the progress callback of `src/src/ui.c`).

Conventions of the embedding

* a C `char` is a `Byte` (`Fin 256`); a C string is the list of its bytes before
  the terminating NUL;
* the file-level `static` variables are the fields of `Manager`;
* everything the operating system or the child process decides (whether
  `pipe`/`fork` succeed, what each `read` returns, when `waitpid` reports the
  child, the wait status, the clock, whether `fopen` succeeds) is an input of
  the call, collected in `Env`;
* calls of the progress callback and the other externally visible actions are
  recorded, in order, in the `Outcome` of the call.
-/

namespace ScriptManager

/-- One C `char`, as an unsigned byte. -/
abbrev Byte := Fin 256

/-- The bytes of an ASCII string literal. -/
def ascii (s : String) : List Byte :=
  s.toList.map (fun c => Fin.ofNat c.toNat)

/-! ## Constants (`script_manager.h`) -/

def MAX_SCRIPTS : Nat := 50
def MAX_PATH_LENGTH : Nat := 256
def MAX_NAME_LENGTH : Nat := 64
def MAX_DESC_LENGTH : Nat := 256

/-- The `sizeof(buffer)` of `char buffer[256]` in `script_manager_execute`. -/
def BUFFER_SIZE : Nat := 256

/-- The `sizeof(output_buffer)` of `char output_buffer[65536]`. -/
def OUTPUT_BUFFER_SIZE : Nat := 65536

/-! ## Data model -/

/-- The `ScriptInfo` struct: three C strings. -/
structure ScriptInfo where
  path : List Byte
  name : List Byte
  description : List Byte
  deriving DecidableEq, Repr

/-- The zero-initialised `ScriptInfo` (`static ScriptInfo empty`). -/
def ScriptInfo.empty : ScriptInfo :=
  { path := [], name := [], description := [] }

/-- The static variables of `script_manager.c`: the script table with its
count, the log directory and the current log file path (empty = none). -/
structure Manager where
  scripts : List ScriptInfo
  script_count : Nat
  log_dir : List Byte
  current_log_file : List Byte
  deriving DecidableEq, Repr

/-- The array access `scripts[index]` (the array is zero-initialised). -/
def Manager.script (st : Manager) (index : Int) : ScriptInfo :=
  st.scripts.getD index.toNat ScriptInfo.empty

/-- What one polling cycle finds on the two channels: `progress` is what
`read(progress_pipe[0], buffer, 255)` returned (`[]` when the call returned a
value `<= 0`), `output` lists what the successive
`read(output_pipe[0], buffer, 255)` calls of the inner loop returned. -/
structure Poll where
  progress : List Byte
  output : List (List Byte)
  deriving DecidableEq, Repr

/-- The behaviour of the child as the supervisor observes it: the cycles after
which `waitpid(pid, &status, WNOHANG)` did not return `pid`, the cycle after
which it did, the wait status it stored, and the bytes the child had written
to the output channel that were still unread when the channel was closed. -/
structure ChildRun where
  running : List Poll
  final : Poll
  status : Nat
  unread : List Byte
  deriving DecidableEq, Repr

/-- The result of `fork()` in the calling process: `pid < 0`, or the child's
pid. (The branch `pid == 0`, lines 220-246, runs in the child process and never
returns to the caller; what it does is the `ChildRun` the parent observes.) -/
inductive Fork where
  | failed
  | parent (pid : Nat)
  deriving DecidableEq, Repr

/-- The fields of `struct tm` read by `strftime(.., "%Y%m%d_%H%M%S", ..)`. -/
structure Tm where
  tm_year : Nat
  tm_mon : Nat
  tm_mday : Nat
  tm_hour : Nat
  tm_min : Nat
  tm_sec : Nat
  deriving DecidableEq, Repr

/-- Everything outside the program that one call of `script_manager_execute`
depends on. -/
structure Env where
  pipe_output : Bool
  pipe_progress : Bool
  fork : Fork
  child : ChildRun
  now : Tm
  fopen_ok : Bool
  deriving DecidableEq, Repr

/-- Externally visible actions of `script_manager_execute`, apart from the
progress callback. -/
inductive Event where
  | pipe (ok : Bool)
  | fork (ok : Bool)
  | execl (argv : List (List Byte))
  | time
  | fopen (path : List Byte) (ok : Bool)
  | fprintf (text : List Byte)
  | fclose
  | warning
  deriving DecidableEq, Repr

/-- What a call of `script_manager_execute` leaves behind: the returned `int`,
the static variables, the values passed to the callback (in call order), the
first `output_size` bytes of `output_buffer`, and the other actions. -/
structure Outcome where
  ret : Int
  st : Manager
  calls : List Int
  output_buffer : List Byte
  events : List Event
  deriving DecidableEq, Repr

/-! ## C library functions used by the code -/

/-- The `isspace` of the "C" locale. -/
def isspace (c : Byte) : Bool :=
  c.val = 32 || (9 ≤ c.val && c.val ≤ 13)

/-- The `isdigit` of the "C" locale. -/
def isdigit (c : Byte) : Bool :=
  48 ≤ c.val && c.val ≤ 57

/-- The `isalnum` of the "C" locale (the program never calls `setlocale`). -/
def isalnum (c : Byte) : Bool :=
  isdigit c || (65 ≤ c.val && c.val ≤ 90) || (97 ≤ c.val && c.val ≤ 122)

/-- The value of the leading decimal digits of a string, after `acc`. -/
def digits_value : List Byte → Nat → Nat
  | [], acc => acc
  | c :: cs, acc =>
    if isdigit c then digits_value cs (acc * 10 + (c.val - 48)) else acc

/-- The saturation of `strtol` to the range of a 64-bit `long`. -/
def clamp_long (x : Int) : Int :=
  if x < -(2 ^ 63) then -(2 ^ 63) else if 2 ^ 63 - 1 < x then 2 ^ 63 - 1 else x

/-- The conversion of a `long` to a 32-bit `int`. -/
def to_int (x : Int) : Int :=
  (x + 2 ^ 31) % 2 ^ 32 - 2 ^ 31

/-- The number `strtol(s, NULL, 10)`: leading white space, an optional sign,
then the longest run of decimal digits (0 when there is none). -/
def strtol (s : List Byte) : Int :=
  match s.dropWhile isspace with
  | [] => 0
  | c :: rest =>
    if c.val = 45 then clamp_long (-(digits_value rest 0 : Int))
    else if c.val = 43 then clamp_long (digits_value rest 0)
    else clamp_long (digits_value (c :: rest) 0)

/-- The function `atoi`, as glibc defines it: `(int) strtol(s, NULL, 10)`. -/
def atoi (s : List Byte) : Int :=
  to_int (strtol s)

/-- The `(status & 0x7f) == 0` of `WIFEXITED`. -/
def WIFEXITED (status : Nat) : Bool :=
  status % 128 = 0

/-- The `(status & 0xff00) >> 8` of `WEXITSTATUS`. -/
def WEXITSTATUS (status : Nat) : Nat :=
  status / 256 % 256

/-- The `WIFSIGNALED` test: the low seven bits are neither 0 nor `0x7f`. -/
def WIFSIGNALED (status : Nat) : Bool :=
  0 < status % 128 && status % 128 < 127

/-- The wait status `(ret << 8) | sig` the kernel builds (`W_EXITCODE`). -/
def W_EXITCODE (ret sig : Nat) : Nat :=
  ret * 256 + sig

/-- The text printed by `%d`. -/
def fmt_d (n : Int) : List Byte :=
  match n with
  | Int.ofNat k => (Nat.toDigits 10 k).map (fun c => Fin.ofNat c.toNat)
  | Int.negSucc k => 45 :: (Nat.toDigits 10 (k + 1)).map (fun c => Fin.ofNat c.toNat)

/-- The text printed by `%s` for the array `a`: its bytes before the first
NUL. -/
def fmt_s (a : List Byte) : List Byte :=
  a.takeWhile (fun c => c.val ≠ 0)

/-- Two decimal digits, zero padded (`%m`, `%d`, `%H`, `%M`, `%S`). -/
def pad2 (n : Nat) : List Byte :=
  [Fin.ofNat (48 + n / 10 % 10), Fin.ofNat (48 + n % 10)]

/-- The text `strftime` produces for `"%Y%m%d_%H%M%S"`. -/
def strftime (tm : Tm) : List Byte :=
  fmt_d (1900 + tm.tm_year : Nat) ++ pad2 (tm.tm_mon + 1) ++ pad2 tm.tm_mday
    ++ ascii "_" ++ pad2 tm.tm_hour ++ pad2 tm.tm_min ++ pad2 tm.tm_sec

/-! ## The polling loop (`script_manager_execute`, lines 258-306) -/

/-- The state of the polling loop: `progress`, the first `output_size` bytes of
`output_buffer`, and the callback calls made so far. -/
structure Monitor where
  progress : Int
  output_buffer : List Byte
  calls : List Int
  deriving DecidableEq, Repr

/-- The statement `if (cb) cb(v);` (`cb = true` stands for a non-NULL pointer). -/
def call_cb (cb : Bool) (v : Int) (calls : List Int) : List Int :=
  if cb then calls ++ [v] else calls

/-- The body of the inner loop (lines 283-288): a chunk is copied behind the
stored bytes when `output_size + output_bytes < sizeof(output_buffer)`, and
skipped otherwise. -/
def store_output (buf chunk : List Byte) : List Byte :=
  if buf.length + chunk.length < OUTPUT_BUFFER_SIZE then buf ++ chunk else buf

/-- The inner loop (line 282): it goes on while `read` returns more than 0
bytes. -/
def drain_output : List (List Byte) → List Byte → List Byte
  | [], buf => buf
  | chunk :: rest, buf =>
    if 0 < chunk.length then drain_output rest (store_output buf chunk) else buf

/-- One polling cycle up to the `waitpid` call (lines 272-289). -/
def poll_cycle (cb : Bool) (p : Poll) (m : Monitor) : Monitor :=
  let m1 : Monitor :=
    if 0 < p.progress.length then
      { m with progress := atoi p.progress, calls := call_cb cb (atoi p.progress) m.calls }
    else m
  { m1 with output_buffer := drain_output p.output m1.output_buffer }

/-- The loop `while (1)`: one cycle for each poll after which `waitpid` did not
return `pid`, then the cycle after which it did (`break`). -/
def monitor_loop (cb : Bool) : List Poll → Poll → Monitor → Monitor
  | [], final, m => poll_cycle cb final m
  | p :: ps, final, m => monitor_loop cb ps final (poll_cycle cb p m)

/-- Lines 308-314: the exit code computed from the wait status. -/
def exit_code_of (status : Nat) : Int :=
  if WIFEXITED status then (WEXITSTATUS status : Int) else 5

/-! ## The log block (`script_manager_execute`, lines 316-373) -/

/-- Lines 325-334: `safe_name`, the first 30 bytes of the script name with every
byte that is not alphanumeric replaced by an underscore. -/
def safe_name (name : List Byte) : List Byte :=
  (name.take 30).map (fun c => if isalnum c then c else 95)

/-- The left-hand side of the test of line 337. -/
def log_path_length (log_dir timestamp safe : List Byte) : Nat :=
  log_dir.length + 1 + timestamp.length + 1 + safe.length + 4

/-- Lines 339-354: the path built in `current_log_file`. -/
def log_path (log_dir timestamp safe : List Byte) : List Byte :=
  log_dir ++ ascii "/" ++ timestamp ++ ascii "_" ++ safe ++ ascii ".log"

/-- The four `fprintf` calls of lines 359-362, as the texts they write. -/
def log_lines (info : ScriptInfo) (exit_code : Int) (output_buffer : List Byte) :
    List (List Byte) :=
  [ ascii "===== " ++ fmt_s info.name ++ ascii " =====\n\n",
    ascii "Command: " ++ fmt_s info.path ++ ascii "\n\n",
    ascii "Exit code: " ++ fmt_d exit_code ++ ascii "\n\n",
    ascii "Output:\n" ++ fmt_s output_buffer ++ ascii "\n" ]

/-- The body of `if (exit_code != 0)` (lines 318-372): the new value of
`current_log_file` and the actions performed. -/
def write_log (log_dir : List Byte) (info : ScriptInfo) (exit_code : Int)
    (output_buffer : List Byte) (now : Tm) (fopen_ok : Bool) :
    List Byte × List Event :=
  let timestamp := strftime now
  let safe := safe_name info.name
  if log_path_length log_dir timestamp safe < MAX_PATH_LENGTH then
    let path := log_path log_dir timestamp safe
    if fopen_ok then
      (path, [Event.time, Event.fopen path true]
        ++ (log_lines info exit_code output_buffer).map Event.fprintf ++ [Event.fclose])
    else
      ([], [Event.time, Event.fopen path false])
  else
    ([], [Event.time, Event.warning])

/-! ## The public functions -/

/-- The argument vector of the `execl` call of lines 237-241 (`params = none`
stands for a NULL pointer). -/
def execl_argv (path : List Byte) (params : Option (List Byte)) : List (List Byte) :=
  match params with
  | some (c :: cs) => [ascii "bash", path, c :: cs]
  | _ => [ascii "bash", path]

/-- The function `script_manager_execute` (lines 199-376), in the calling
process. -/
def script_manager_execute (st : Manager) (env : Env) (index : Int) (cb : Bool)
    (params : Option (List Byte)) : Outcome :=
  if index < 0 ∨ index ≥ (st.script_count : Int) then
    { ret := 1, st := st, calls := [], output_buffer := [], events := [] }
  else
    let st1 : Manager := { st with current_log_file := [] }
    if !env.pipe_output then
      { ret := 2, st := st1, calls := [], output_buffer := [],
        events := [Event.pipe false] }
    else if !env.pipe_progress then
      { ret := 2, st := st1, calls := [], output_buffer := [],
        events := [Event.pipe true, Event.pipe false] }
    else
      match env.fork with
      | Fork.failed =>
        { ret := 3, st := st1, calls := [], output_buffer := [],
          events := [Event.pipe true, Event.pipe true, Event.fork false] }
      | Fork.parent _ =>
        let launch : List Event :=
          [Event.pipe true, Event.pipe true, Event.fork true,
            Event.execl (execl_argv (st.script index).path params)]
        let m0 : Monitor := { progress := 0, output_buffer := [], calls := call_cb cb 0 [] }
        let m := monitor_loop cb env.child.running env.child.final m0
        let calls := call_cb cb 100 m.calls
        let exit_code := exit_code_of env.child.status
        if exit_code ≠ 0 then
          let w := write_log st.log_dir (st.script index) exit_code m.output_buffer
            env.now env.fopen_ok
          { ret := exit_code, st := { st1 with current_log_file := w.1 }, calls := calls,
            output_buffer := m.output_buffer, events := launch ++ w.2 }
        else
          { ret := exit_code, st := st1, calls := calls,
            output_buffer := m.output_buffer, events := launch }

/-- The function `script_manager_get_log_file` (lines 379-381); `none` stands
for NULL. -/
def script_manager_get_log_file (st : Manager) : Option (List Byte) :=
  if st.current_log_file ≠ [] then some st.current_log_file else none

/-- The percentage `ui_update_progress` (`ui.c`, lines 233-236) draws: its
argument capped between 0 and 100. -/
def ui_update_progress (percentage : Int) : Int :=
  let p1 := if percentage < 0 then 0 else percentage
  if p1 > 100 then 100 else p1

/-! ## Well-formed inputs -/

/-- A `read` into `buffer` with size `sizeof(buffer) - 1` returns at most 255
bytes, and every pass of the inner loop returned at least one byte. -/
def Poll.wf (p : Poll) : Prop :=
  p.progress.length < BUFFER_SIZE ∧ ∀ chunk ∈ p.output, 0 < chunk.length ∧ chunk.length < BUFFER_SIZE

instance (p : Poll) : Decidable p.wf := by
  unfold Poll.wf; infer_instance

/-- Every poll of the run is well formed. -/
def ChildRun.wf (c : ChildRun) : Prop :=
  (∀ p ∈ c.running, p.wf) ∧ c.final.wf

instance (c : ChildRun) : Decidable c.wf := by
  unfold ChildRun.wf; infer_instance

/-- The chunks read from the output channel during the run, in order. -/
def ChildRun.chunks (c : ChildRun) : List (List Byte) :=
  (c.running.map Poll.output).flatten ++ c.final.output

/-- The text fragments read from the progress channel during the run (the
reads that returned more than 0 bytes), in order. -/
def ChildRun.fragments (c : ChildRun) : List (List Byte) :=
  ((c.running ++ [c.final]).map Poll.progress).filter (fun f => 0 < f.length)

/-- A call that gets past the index test and creates both pipes and the child. -/
def launched (st : Manager) (env : Env) (index : Int) : Prop :=
  0 ≤ index ∧ index < (st.script_count : Int) ∧ env.pipe_output = true ∧
    env.pipe_progress = true ∧ env.fork ≠ Fork.failed

instance (st : Manager) (env : Env) (index : Int) : Decidable (launched st env index) := by
  unfold launched; infer_instance

/-- The log actions: everything the block of lines 318-372 can do. -/
def Event.is_log : Event → Bool
  | Event.time => true
  | Event.fopen _ _ => true
  | Event.fprintf _ => true
  | Event.fclose => true
  | Event.warning => true
  | _ => false

/-- The `fopen` calls. -/
def Event.is_fopen : Event → Bool
  | Event.fopen _ _ => true
  | _ => false

/-- How many times the log block was entered: each entry reads the clock once
(line 319), and nothing else does. -/
def log_steps (events : List Event) : Nat :=
  events.count Event.time


/-! ## Concrete inputs -/

/-- A script entry as `script_manager_init` stores it. -/
def demo_script : ScriptInfo :=
  { path := ascii "/opt/scripts/hello_world.sh", name := ascii "Hello world",
    description := ascii "Prints a greeting" }

/-- A manager holding one script and no log path. -/
def demo_manager : Manager :=
  { scripts := [demo_script], script_count := 1, log_dir := ascii "/home/user/logs",
    current_log_file := [] }

/-- The clock reading 2025-03-12 13:08:31. -/
def demo_tm : Tm :=
  { tm_year := 125, tm_mon := 2, tm_mday := 12, tm_hour := 13, tm_min := 8, tm_sec := 31 }

/-- A cycle in which both reads return nothing. -/
def quiet_poll : Poll :=
  { progress := [], output := [] }

/-- A child that is reaped in the first cycle, having written nothing. -/
def quiet_child (status : Nat) : ChildRun :=
  { running := [], final := quiet_poll, status := status, unread := [] }

/-- An environment in which both pipes and the fork succeed and the log file
can be opened. -/
def demo_env (child : ChildRun) : Env :=
  { pipe_output := true, pipe_progress := true, fork := Fork.parent 4242, child := child,
    now := demo_tm, fopen_ok := true }


/-- A child that is reaped in the first cycle, after the inner loop has read
`chunks` from the output channel. -/
def output_child (chunks : List (List Byte)) (status : Nat) : ChildRun :=
  { running := [], final := { progress := [], output := chunks }, status := status,
    unread := [] }

/-- Reads of 256 times 255 bytes `a`, then 250 bytes `a`, 10 bytes `b`, 1 byte
`c`. -/
def late_fit_chunks : List (List Byte) :=
  List.replicate 256 (List.replicate 255 97) ++
    [List.replicate 250 97, List.replicate 10 98, [99]]

/-- Reads of 70000 bytes in all: 274 times 255 bytes `a`, then 130 bytes `b`. -/
def big_chunks : List (List Byte) :=
  List.replicate 274 (List.replicate 255 97) ++ [List.replicate 130 98]

/-- A child that writes the given texts to the progress channel, one per
cycle, prints nothing, and is reaped in a last quiet cycle. -/
def progress_child (fragments : List (List Byte)) (status : Nat) : ChildRun :=
  { running := fragments.map (fun f => { progress := f, output := [] }), final := quiet_poll,
    status := status, unread := [] }

/-- A manager that still holds the log path of an earlier failed execution. -/
def stale_manager : Manager :=
  { scripts := [demo_script], script_count := 1, log_dir := ascii "/home/user/logs",
    current_log_file := ascii "/home/user/logs/20250312_130831_Hello_world.log" }

/-- An environment in which `pipe(output_pipe)` fails. -/
def pipe_failure_env : Env :=
  { pipe_output := false, pipe_progress := true, fork := Fork.parent 4242,
    child := quiet_child 0, now := demo_tm, fopen_ok := true }

/-- An environment in which both pipes are created and `fork` fails. -/
def fork_failure_env : Env :=
  { pipe_output := true, pipe_progress := true, fork := Fork.failed,
    child := quiet_child 0, now := demo_tm, fopen_ok := true }

/-! ## The log record -/

/-- What an action writes to the log file. -/
def Event.written : Event → Option (List Byte)
  | Event.fprintf text => some text
  | _ => none

/-- The text written to the log file: what the `fprintf` calls wrote, in
order. -/
def log_text (events : List Event) : List Byte :=
  (events.filterMap Event.written).flatten

/-- The log text in the words of the specification ("Log file format"): the
title line with the script name, a blank line, `Command: <path> [params]`, a
blank line, `Exit code: <n>`, a blank line, `Output:` followed by the full
captured buffer. Written from the specification, to be compared with
`log_text`. -/
def spec_log_text (info : ScriptInfo) (params : Option (List Byte)) (exit_code : Int)
    (output_buffer : List Byte) : List Byte :=
  ascii "===== " ++ info.name ++ ascii " =====\n\n"
    ++ ascii "Command: " ++ info.path
    ++ (match params with
        | some (c :: cs) => ascii " " ++ c :: cs
        | _ => [])
    ++ ascii "\n\n"
    ++ ascii "Exit code: " ++ fmt_d exit_code ++ ascii "\n\n"
    ++ ascii "Output:\n" ++ output_buffer ++ ascii "\n"

/-- An execution that writes a log: the child was launched, the exit code is
not 0, the path passes the test of line 337 and `fopen` succeeds. -/
def logged (st : Manager) (env : Env) (index : Int) : Prop :=
  launched st env index ∧ exit_code_of env.child.status ≠ 0 ∧
    log_path_length st.log_dir (strftime env.now) (safe_name (st.script index).name)
      < MAX_PATH_LENGTH ∧ env.fopen_ok = true

instance (st : Manager) (env : Env) (index : Int) : Decidable (logged st env index) := by
  unfold logged; infer_instance

/-- A child that is reaped in the first cycle with exit status 2, after the
inner loop has read `chunks`. -/
def failing_child (chunks : List (List Byte)) : ChildRun :=
  output_child chunks (W_EXITCODE 2 0)

/-- A broken-down time as `localtime` returns it: every field in its range,
and a year of four digits. -/
def Tm.wf (tm : Tm) : Prop :=
  tm.tm_year ≤ 8099 ∧ tm.tm_mon < 12 ∧ 1 ≤ tm.tm_mday ∧ tm.tm_mday ≤ 31 ∧ tm.tm_hour < 24 ∧
    tm.tm_min < 60 ∧ tm.tm_sec ≤ 60

instance (tm : Tm) : Decidable tm.wf := by
  unfold Tm.wf; infer_instance

/-! ## Script discovery (`script_manager.c`, lines 30-197) -/

/-- The constant `script_dir`. -/
def script_dir : List Byte :=
  ascii "/home/dyl-syzygy/Universe42/bash_command/scripts"

/-- The function `strstr`, as the offset of the first occurrence of `needle`
in `hay` (`none` for NULL). -/
def strstr : List Byte → List Byte → Option Nat
  | [], needle => if needle.isPrefixOf [] then some 0 else none
  | c :: cs, needle =>
    if needle.isPrefixOf (c :: cs) then some 0 else (strstr cs needle).map (fun i => i + 1)

/-- The function `extract_script_name` (lines 50-69): the C string that starts
at `name` when the function returns. For a file name of `MAX_NAME_LENGTH`
bytes or more it runs past the array `name[64]`, see `stored_name`. -/
def extract_script_name (filename : List Byte) : List Byte :=
  let spaced := filename.map (fun c => if c.val = 95 then (32 : Byte) else c)
  let cut :=
    match strstr spaced (ascii ".sh") with
    | some i => spaced.take i
    | none => spaced
  match cut with
  | [] => []
  | c :: cs => if 97 ≤ c.val ∧ c.val ≤ 122 then (c - 32) :: cs else c :: cs

/-- The display name in the words of the claim: the file name with its
trailing `.sh` removed, every underscore replaced by a space, and the first
character upper-cased when it is a lower-case ASCII letter. Written from the
claim, to be compared with `extract_script_name`. -/
def spec_script_name (filename : List Byte) : List Byte :=
  match (filename.take (filename.length - 3)).map
      (fun c => if c.val = 95 then (32 : Byte) else c) with
  | [] => []
  | c :: cs => if 97 ≤ c.val ∧ c.val ≤ 122 then (c - 32) :: cs else c :: cs

/-- What `fgets(line, size, file)` stores: at most `size - 1` bytes, up to and
including the first newline. -/
def fgets_line : Nat → List Byte → List Byte
  | 0, _ => []
  | _, [] => []
  | n + 1, c :: cs => if c.val = 10 then [c] else c :: fgets_line n cs

/-- The function `fgets` on the unread rest of a file: the line stored and the
new rest, or `none` (NULL) at end of file. -/
def fgets (size : Nat) (file : List Byte) : Option (List Byte × List Byte) :=
  match file with
  | [] => none
  | _ => some (fgets_line (size - 1) file, file.drop (fgets_line (size - 1) file).length)

/-- Lines 91-105 of `extract_script_description`: the description taken from
the line read. -/
def description_of_line (line : List Byte) : List Byte :=
  let text := fmt_s line
  let desc_start :=
    match text with
    | c :: rest =>
      if c.val = 35 then
        match rest with
        | d :: rest2 => if d.val = 32 then rest2 else d :: rest2
        | [] => []
      else c :: rest
    | [] => []
  (desc_start.takeWhile (fun c => c.val ≠ 10)).take (MAX_DESC_LENGTH - 1)

/-- The function `extract_script_description` (lines 72-111); `file` is the
content `fopen(path, "r")` gives access to, `none` when it fails. -/
def extract_script_description (file : Option (List Byte)) : List Byte :=
  match file with
  | none => ascii "No description available"
  | some content =>
    match fgets MAX_DESC_LENGTH content with
    | none => ascii "No description available"
    | some (line, rest) =>
      if (fmt_s line).take 2 = ascii "#!" then
        match fgets MAX_DESC_LENGTH rest with
        | none => ascii "No description available"
        | some (line2, _) => description_of_line line2
      else description_of_line line

/-- The C string that starts at the field `name` of a `ScriptInfo` once both
`extract_script_name` and `extract_script_description` have run. A name of
`MAX_NAME_LENGTH` bytes or more was copied by `strcpy` past `name[64]` into
the field `description` that follows it in the struct; `description` is
written afterwards, so the string at `name` is then the first 64 bytes of the
name followed by the description. -/
def stored_name (name description : List Byte) : List Byte :=
  if name.length < MAX_NAME_LENGTH then name
  else name.take MAX_NAME_LENGTH ++ description

/-- One `readdir` result with what `stat` and `fopen` report for it:
`regular` stands for `stat(path, &st) == 0 && S_ISREG(st.st_mode)`. -/
structure DirEntry where
  d_name : List Byte
  regular : Bool
  file : Option (List Byte)
  deriving DecidableEq, Repr

/-- What `script_manager_init` reads from outside: `getenv("HOME")` and the
entries of the scripts directory (`none` when `opendir` fails). -/
structure InitEnv where
  home : Option (List Byte)
  dir : Option (List DirEntry)
  deriving DecidableEq, Repr

/-- The assignment `scripts[i] = x` on the zero-initialised array. -/
def array_set (a : List ScriptInfo) (i : Nat) (x : ScriptInfo) : List ScriptInfo :=
  if i < a.length then a.set i x
  else a ++ List.replicate (i - a.length) ScriptInfo.empty ++ [x]

/-- The loop of lines 131-171 over the directory entries, on the pair
(`scripts`, `script_count`). -/
def scan_entries : List DirEntry → List ScriptInfo × Nat → List ScriptInfo × Nat
  | [], acc => acc
  | e :: es, (scripts, count) =>
    if count < MAX_SCRIPTS then
      if e.d_name.head? = some 46 then scan_entries es (scripts, count)
      else if e.d_name.length ≤ 3 ∨ e.d_name.drop (e.d_name.length - 3) ≠ ascii ".sh" then
        scan_entries es (scripts, count)
      else if script_dir.length + 1 + e.d_name.length ≥ MAX_PATH_LENGTH then
        scan_entries es (scripts, count)
      else if e.regular then
        scan_entries es
          (array_set scripts count
            { path := (script_dir ++ ascii "/" ++ e.d_name).take (MAX_PATH_LENGTH - 1),
              name := stored_name (extract_script_name e.d_name)
                (extract_script_description e.file),
              description := extract_script_description e.file },
            count + 1)
      else scan_entries es (scripts, count)
    else (scripts, count)

/-- The function `script_manager_init` (lines 113-174), with
`ensure_log_directory` (lines 38-47) for `log_dir`. -/
def script_manager_init (st : Manager) (env : InitEnv) : Manager :=
  let log_dir := ((env.home.getD (ascii ".")) ++ ascii "/logs").take (MAX_PATH_LENGTH - 1)
  match env.dir with
  | none => { st with log_dir := log_dir }
  | some entries =>
    { st with
      log_dir := log_dir
      scripts := (scan_entries entries (st.scripts, 0)).1
      script_count := (scan_entries entries (st.scripts, 0)).2 }

/-- The file-level variables before `script_manager_init` runs: all zero. -/
def initial_manager : Manager :=
  { scripts := [], script_count := 0, log_dir := [], current_log_file := [] }

/-- The function `script_manager_get_by_index` (lines 184-197). -/
def script_manager_get_by_index (st : Manager) (index : Int) : ScriptInfo :=
  if index ≥ 0 ∧ index < (st.script_count : Int) then st.script index else ScriptInfo.empty

/-- The property of the script table that `script_manager_init` establishes:
every stored descriptor has a non-empty path. -/
def Manager.wf (st : Manager) : Prop :=
  ∀ i : Nat, i < st.script_count → (st.script (i : Int)).path ≠ []

instance (st : Manager) : Decidable st.wf := by
  unfold Manager.wf; infer_instance

/-! ## Result display (`ui.c`, lines 262-303) -/

/-- The three outcomes `ui_show_result` distinguishes. -/
inductive ResultKind where
  | pass
  | warning
  | fail
  deriving DecidableEq, Repr

/-- The branch `ui_show_result` takes for `result` (lines 276-282). -/
def ui_show_result (result : Int) : ResultKind :=
  if result = 0 then ResultKind.pass
  else if result < 0 then ResultKind.warning
  else ResultKind.fail

/-! ## Menu input (`input.c`) -/

/-- The function `input_read_char` (lines 42-61) on the successive results of
`getchar`: the key and the unread rest, `none` when the results run out. -/
def input_read_char : List Int → Option (Int × List Int)
  | [] => none
  | c :: rest =>
    if c = 27 then
      match rest with
      | _ :: k :: rest2 =>
        some ((if k = 65 then 107 else if k = 66 then 106 else if k = 67 then 108
          else if k = 68 then 104 else c), rest2)
      | _ => none
    else some (c, rest)

/-- What one pass of the `switch` of `input_get_menu_selection` does: return a
value, or go on with a new `current_selection`. -/
inductive MenuStep where
  | ret (value : Int)
  | next (current_selection : Int)
  deriving DecidableEq, Repr

/-- The `switch (key)` of lines 95-141. -/
def menu_key (script_count current_selection key : Int) : MenuStep :=
  if key = 107 ∨ key = 75 then
    if current_selection > 0 then MenuStep.next (current_selection - 1)
    else MenuStep.next (script_count - 1)
  else if key = 106 ∨ key = 74 then
    if current_selection < script_count - 1 then MenuStep.next (current_selection + 1)
    else MenuStep.next 0
  else if key = 104 ∨ key = 72 ∨ key = 108 ∨ key = 76 then MenuStep.next current_selection
  else if key = 10 ∨ key = 13 then MenuStep.ret current_selection
  else if key = 113 ∨ key = 81 ∨ key = 3 then MenuStep.ret (-1)
  else if 49 ≤ key ∧ key ≤ 57 then
    if key - 48 - 1 < script_count then MenuStep.ret (key - 48 - 1)
    else MenuStep.next current_selection
  else MenuStep.next current_selection

/-- The loop `while (1)` of lines 88-147; every pass reads at least one
`getchar` result, so `fuel` = the number of results left is enough. -/
def menu_loop (script_count : Int) : Nat → List Int → Int → Option Int
  | 0, _, _ => none
  | fuel + 1, input, current_selection =>
    match input_read_char input with
    | none => none
    | some (key, rest) =>
      match menu_key script_count current_selection key with
      | MenuStep.ret value => some value
      | MenuStep.next selection => menu_loop script_count fuel rest selection

/-- The function `input_get_menu_selection` (lines 63-153) for the script
count returned by `script_manager_get_count` and the `getchar` results
`input`: the value returned, `none` while the function is still waiting for
input when the results run out. -/
def input_get_menu_selection (st : Manager) (input : List Int) : Option Int :=
  menu_loop (st.script_count : Int) input.length input 0

/-! ## More concrete inputs -/

/-- Everything the child wrote to the output channel: what the drains read,
then what was still unread when the channel was closed. -/
def ChildRun.written (c : ChildRun) : List Byte :=
  c.chunks.flatten ++ c.unread

/-- A scripts directory holding the single regular file `my.shell_test.sh`. -/
def dotted_name_dir : InitEnv :=
  { home := none
    dir := some [{ d_name := ascii "my.shell_test.sh", regular := true, file := none }] }

/-- A scripts directory that holds no entry. -/
def empty_dir : InitEnv :=
  { home := some (ascii "/home/user"), dir := some [] }

/-- A manager whose log directory takes 250 bytes (a long `HOME`). -/
def long_dir_manager : Manager :=
  { scripts := [demo_script], script_count := 1,
    log_dir := ascii "/" ++ List.replicate 244 97 ++ ascii "/logs", current_log_file := [] }

/-- A manager with an empty script table, as `script_manager_init` leaves it
when the scripts directory holds no script. -/
def empty_manager : Manager :=
  { scripts := [], script_count := 0, log_dir := ascii "/home/user/logs",
    current_log_file := [] }

/-! ## Lemmas on the polling loop -/

theorem poll_cycle_calls (cb : Bool) (p : Poll) (m : Monitor) :
    (poll_cycle cb p m).calls =
      if 0 < p.progress.length then call_cb cb (atoi p.progress) m.calls else m.calls := by
  unfold poll_cycle
  split <;> rfl

theorem poll_cycle_output (cb : Bool) (p : Poll) (m : Monitor) :
    (poll_cycle cb p m).output_buffer = drain_output p.output m.output_buffer := by
  unfold poll_cycle
  split <;> rfl

theorem monitor_loop_calls (ps : List Poll) (final : Poll) (m : Monitor) :
    (monitor_loop true ps final m).calls =
      m.calls ++ (((ps ++ [final]).map Poll.progress).filter (fun f => 0 < f.length)).map atoi := by
  induction ps generalizing m with
  | nil =>
    simp only [monitor_loop, poll_cycle_calls, call_cb, List.nil_append, List.map_cons,
      List.map_nil, List.filter_cons, List.filter_nil]
    split <;> simp_all
  | cons p ps ih =>
    simp only [monitor_loop, ih, poll_cycle_calls, call_cb, List.cons_append, List.map_cons,
      List.filter_cons]
    split <;> simp_all

theorem monitor_loop_calls_none (ps : List Poll) (final : Poll) (m : Monitor) :
    (monitor_loop false ps final m).calls = m.calls := by
  induction ps generalizing m with
  | nil => simp [monitor_loop, poll_cycle_calls, call_cb]
  | cons p ps ih => simp [monitor_loop, ih, poll_cycle_calls, call_cb]

/-! ## Lemmas on `script_manager_execute` -/

theorem execute_launched (st : Manager) (env : Env) (index : Int) (cb : Bool)
    (params : Option (List Byte)) (h : launched st env index) :
    script_manager_execute st env index cb params =
      (let st1 : Manager := { st with current_log_file := [] }
       let launch : List Event :=
          [Event.pipe true, Event.pipe true, Event.fork true,
            Event.execl (execl_argv (st.script index).path params)]
       let m := monitor_loop cb env.child.running env.child.final
          { progress := 0, output_buffer := [], calls := call_cb cb 0 [] }
       let w := write_log st.log_dir (st.script index) (exit_code_of env.child.status)
          m.output_buffer env.now env.fopen_ok
       if exit_code_of env.child.status ≠ 0 then
          { ret := exit_code_of env.child.status, st := { st1 with current_log_file := w.1 },
            calls := call_cb cb 100 m.calls, output_buffer := m.output_buffer,
            events := launch ++ w.2 }
       else
          { ret := exit_code_of env.child.status, st := st1, calls := call_cb cb 100 m.calls,
            output_buffer := m.output_buffer, events := launch }) := by
  obtain ⟨h0, h1, h2, h3, h4⟩ := h
  have hidx : ¬ (index < 0 ∨ index ≥ (st.script_count : Int)) := by omega
  unfold script_manager_execute
  rw [if_neg hidx]
  cases hf : env.fork with
  | failed => exact absurd hf h4
  | parent pid => simp only [h2, h3, Bool.not_true, Bool.false_eq_true, if_false]

theorem execute_ret (st : Manager) (env : Env) (index : Int) (cb : Bool)
    (params : Option (List Byte)) (h : launched st env index) :
    (script_manager_execute st env index cb params).ret = exit_code_of env.child.status := by
  rw [execute_launched st env index cb params h]
  dsimp only
  split <;> rfl

theorem execute_calls (st : Manager) (env : Env) (index : Int)
    (params : Option (List Byte)) (h : launched st env index) :
    (script_manager_execute st env index true params).calls =
      0 :: (env.child.fragments.map atoi ++ [100]) := by
  rw [execute_launched st env index true params h]
  dsimp only
  split <;> simp [call_cb, monitor_loop_calls, ChildRun.fragments]

theorem exit_code_of_exited (c : Nat) (hc : c ≤ 255) : exit_code_of (W_EXITCODE c 0) = c := by
  have h1 : WIFEXITED (W_EXITCODE c 0) = true := by
    simp only [WIFEXITED, W_EXITCODE, decide_eq_true_eq]
    omega
  have h2 : WEXITSTATUS (W_EXITCODE c 0) = c := by
    simp only [WEXITSTATUS, W_EXITCODE]
    omega
  simp [exit_code_of, h1, h2]

theorem exit_code_of_signaled (status : Nat) (hs : WIFSIGNALED status = true) :
    exit_code_of status = 5 := by
  have h1 : WIFEXITED status = false := by
    simp only [WIFSIGNALED, Bool.and_eq_true, decide_eq_true_eq] at hs
    simp only [WIFEXITED, decide_eq_false_iff_not]
    omega
  simp [exit_code_of, h1]

theorem execute_log_path (st : Manager) (env : Env) (index : Int) (cb : Bool)
    (params : Option (List Byte)) (h : launched st env index) :
    (script_manager_execute st env index cb params).st.current_log_file =
      if exit_code_of env.child.status ≠ 0 then
        (write_log st.log_dir (st.script index) (exit_code_of env.child.status)
          (script_manager_execute st env index cb params).output_buffer env.now env.fopen_ok).1
      else [] := by
  rw [execute_launched st env index cb params h]
  dsimp only
  split <;> rfl

theorem execute_events (st : Manager) (env : Env) (index : Int) (cb : Bool)
    (params : Option (List Byte)) (h : launched st env index) :
    (script_manager_execute st env index cb params).events =
      [Event.pipe true, Event.pipe true, Event.fork true,
        Event.execl (execl_argv (st.script index).path params)] ++
      if exit_code_of env.child.status ≠ 0 then
        (write_log st.log_dir (st.script index) (exit_code_of env.child.status)
          (script_manager_execute st env index cb params).output_buffer env.now env.fopen_ok).2
      else [] := by
  rw [execute_launched st env index cb params h]
  dsimp only
  split <;> simp


/-! ## Progress callback: first and last call (C1) -/

/-- With a NULL callback every call is skipped by the guards `if (cb)`: no
value is passed to any callback. -/
theorem execute_null_callback_no_calls :
    launched demo_manager (demo_env (quiet_child 0)) 0 ∧
      (script_manager_execute demo_manager (demo_env (quiet_child 0)) 0 false none).calls = [] := by
  decide

/-- C1: for every call of `script_manager_execute` with a valid index in
which pipe and process creation succeed, and for every behaviour of the child,
the sequence of values passed to the progress callback is non-empty, its first
element is 0 and its last element is 100. -/
theorem execute_progress_first_last (st : Manager) (env : Env) (index : Int)
    (params : Option (List Byte)) (h : launched st env index) :
    (script_manager_execute st env index true params).calls ≠ [] ∧
      (script_manager_execute st env index true params).calls.head? = some 0 ∧
      (script_manager_execute st env index true params).calls.getLast? = some 100 := by
  rw [execute_calls st env index params h]
  refine ⟨by simp, by simp, ?_⟩
  rw [← List.cons_append, List.getLast?_append]
  simp

theorem execute_progress_first_last_witness :
    launched demo_manager (demo_env (quiet_child (W_EXITCODE 2 0))) 0 ∧
      (script_manager_execute demo_manager (demo_env (quiet_child (W_EXITCODE 2 0))) 0 true
        none).calls ≠ [] ∧
      (script_manager_execute demo_manager (demo_env (quiet_child (W_EXITCODE 2 0))) 0 true
        none).calls.head? = some 0 ∧
      (script_manager_execute demo_manager (demo_env (quiet_child (W_EXITCODE 2 0))) 0 true
        none).calls.getLast? = some 100 :=
  ⟨by decide, execute_progress_first_last demo_manager (demo_env (quiet_child (W_EXITCODE 2 0)))
    0 none (by decide)⟩

/-! ## Exit classification (C2, C3) -/

/-- C2: when the child exits normally with exit status `c`, `0 <= c <= 255`
(wait status `c << 8`), `script_manager_execute` returns exactly `c`. -/
theorem execute_returns_exit_status (st : Manager) (env : Env) (index : Int) (cb : Bool)
    (params : Option (List Byte)) (c : Nat) (h : launched st env index) (hc : c ≤ 255)
    (hs : env.child.status = W_EXITCODE c 0) :
    WIFEXITED env.child.status = true ∧
      (script_manager_execute st env index cb params).ret = c := by
  refine ⟨?_, ?_⟩
  · rw [hs]
    simp only [WIFEXITED, W_EXITCODE, decide_eq_true_eq]
    omega
  · rw [execute_ret st env index cb params h, hs, exit_code_of_exited c hc]

theorem execute_returns_exit_status_witness :
    WIFEXITED (demo_env (quiet_child (W_EXITCODE 42 0))).child.status = true ∧
      (script_manager_execute demo_manager (demo_env (quiet_child (W_EXITCODE 42 0))) 0 true
        none).ret = (42 : Nat) :=
  execute_returns_exit_status demo_manager (demo_env (quiet_child (W_EXITCODE 42 0))) 0 true none
    42 (by decide) (by decide) rfl

/-- C3, counterexample: a child killed by signal 9 makes the function return 5,
which lies in 0..255 and is also what it returns for a child that exits
normally with status 5. -/
theorem signal_sentinel_collides_with_exit_5 :
    launched demo_manager (demo_env (quiet_child 9)) 0 ∧ WIFSIGNALED 9 = true ∧
      (script_manager_execute demo_manager (demo_env (quiet_child 9)) 0 true none).ret = 5 ∧
      launched demo_manager (demo_env (quiet_child (W_EXITCODE 5 0))) 0 ∧
      WIFEXITED (W_EXITCODE 5 0) = true ∧
      (script_manager_execute demo_manager (demo_env (quiet_child (W_EXITCODE 5 0))) 0 true
        none).ret = 5 := by
  decide

/-- C3, amended: for every child terminated by a signal the function returns
the fixed sentinel 5; it is never 0, and a child that exits normally with
status `c` in 0..255 gets the same return value exactly when `c = 5`. -/
theorem execute_signal_sentinel (st : Manager) (env : Env) (index : Int) (cb : Bool)
    (params : Option (List Byte)) (h : launched st env index)
    (hs : WIFSIGNALED env.child.status = true) :
    (script_manager_execute st env index cb params).ret = 5 ∧
      (script_manager_execute st env index cb params).ret ≠ 0 ∧
      ∀ (env2 : Env) (c : Nat), launched st env2 index → c ≤ 255 →
        env2.child.status = W_EXITCODE c 0 →
        ((script_manager_execute st env2 index cb params).ret =
          (script_manager_execute st env index cb params).ret ↔ c = 5) := by
  have hr : (script_manager_execute st env index cb params).ret = 5 := by
    rw [execute_ret st env index cb params h, exit_code_of_signaled _ hs]
  refine ⟨hr, by rw [hr]; decide, ?_⟩
  intro env2 c h2 hc hs2
  rw [hr, execute_ret st env2 index cb params h2, hs2, exit_code_of_exited c hc]
  omega

theorem execute_signal_sentinel_witness :
    (script_manager_execute demo_manager (demo_env (quiet_child 9)) 0 true none).ret = 5 ∧
      (script_manager_execute demo_manager (demo_env (quiet_child 9)) 0 true none).ret ≠ 0 ∧
      ∀ (env2 : Env) (c : Nat), launched demo_manager env2 0 → c ≤ 255 →
        env2.child.status = W_EXITCODE c 0 →
        ((script_manager_execute demo_manager env2 0 true none).ret =
          (script_manager_execute demo_manager (demo_env (quiet_child 9)) 0 true none).ret ↔
            c = 5) :=
  execute_signal_sentinel demo_manager (demo_env (quiet_child 9)) 0 true none (by decide)
    (by decide)

/-! ## The log step runs exactly on failure (C4) -/

set_option maxRecDepth 8192 in
/-- C4, counterexample: with a log directory of 250 bytes the log path would
take 282 bytes; a child that exits with status 2 makes the function return 2,
and the log block reads the clock and prints the warning, without any `fopen`
or `fprintf`: no log write is attempted although the exit code is not 0. -/
theorem long_path_no_log_write :
    launched long_dir_manager (demo_env (quiet_child (W_EXITCODE 2 0))) 0 ∧
      long_dir_manager.log_dir.length = 250 ∧
      (script_manager_execute long_dir_manager (demo_env (quiet_child (W_EXITCODE 2 0))) 0 true
        none).ret = 2 ∧
      (script_manager_execute long_dir_manager (demo_env (quiet_child (W_EXITCODE 2 0))) 0 true
        none).events.filter Event.is_log = [Event.time, Event.warning] ∧
      (script_manager_execute long_dir_manager (demo_env (quiet_child (W_EXITCODE 2 0))) 0 true
        none).events.filter Event.is_fopen = [] := by
  decide

/-- C4, amended: for every completed execution the log block is entered
exactly when the exit code is non-zero. With exit code 0 no log action happens
and `script_manager_get_log_file` returns NULL afterwards; with a non-zero exit
code the block is entered exactly once, and it attempts exactly one log write
(one `fopen` call) when the full path length is below `MAX_PATH_LENGTH`, and
none, printing a warning instead, when the path is too long. -/
theorem execute_log_step_iff_failure (st : Manager) (env : Env) (index : Int) (cb : Bool)
    (params : Option (List Byte)) (h : launched st env index) :
    ((script_manager_execute st env index cb params).ret = 0 →
        (script_manager_execute st env index cb params).events.filter Event.is_log = [] ∧
        script_manager_get_log_file (script_manager_execute st env index cb params).st = none) ∧
      ((script_manager_execute st env index cb params).ret ≠ 0 →
        log_steps (script_manager_execute st env index cb params).events = 1 ∧
        ((script_manager_execute st env index cb params).events.filter Event.is_fopen).length =
          (if log_path_length st.log_dir (strftime env.now) (safe_name (st.script index).name)
              < MAX_PATH_LENGTH then 1 else 0) ∧
        ((script_manager_execute st env index cb params).events.filter Event.is_fopen).length +
          (script_manager_execute st env index cb params).events.count Event.warning = 1) := by
  have he := execute_events st env index cb params h
  have hl := execute_log_path st env index cb params h
  have hr := execute_ret st env index cb params h
  generalize script_manager_execute st env index cb params = o at he hl hr ⊢
  simp only [script_manager_get_log_file]
  rw [he, hl, hr]
  refine ⟨?_, ?_⟩
  · intro h0
    simp [h0, Event.is_log, script_manager_get_log_file]
  · intro h0
    simp only [h0, ne_eq, not_false_eq_true, if_true, write_log, log_steps]
    split
    · split <;> simp [log_lines, Event.is_fopen]
    · simp [Event.is_fopen]

theorem execute_log_step_iff_failure_witness :
    launched demo_manager (demo_env (quiet_child (W_EXITCODE 2 0))) 0 ∧
      log_steps (script_manager_execute demo_manager (demo_env (quiet_child (W_EXITCODE 2 0))) 0
        true none).events = 1 :=
  ⟨by decide, ((execute_log_step_iff_failure demo_manager
    (demo_env (quiet_child (W_EXITCODE 2 0))) 0 true none (by decide)).2 (by decide)).1⟩


/-! ## Lemmas on the output buffer -/

theorem drain_output_eq_foldl (chunks : List (List Byte)) (buf : List Byte)
    (h : ∀ chunk ∈ chunks, 0 < chunk.length) :
    drain_output chunks buf = chunks.foldl store_output buf := by
  induction chunks generalizing buf with
  | nil => rfl
  | cons c cs ih =>
    have hc : 0 < c.length := h c (List.mem_cons_self c cs)
    simp only [drain_output, hc, if_true, List.foldl_cons]
    exact ih _ (fun x hx => h x (List.mem_cons_of_mem c hx))

theorem monitor_loop_output (cb : Bool) (ps : List Poll) (final : Poll) (m : Monitor)
    (hps : ∀ p ∈ ps, p.wf) (hf : final.wf) :
    (monitor_loop cb ps final m).output_buffer =
      ((ps.map Poll.output).flatten ++ final.output).foldl store_output m.output_buffer := by
  induction ps generalizing m with
  | nil =>
    simp only [monitor_loop, poll_cycle_output, List.map_nil, List.flatten_nil, List.nil_append]
    exact drain_output_eq_foldl _ _ (fun c hc => (hf.2 c hc).1)
  | cons p ps ih =>
    have hp : p.wf := hps p (List.mem_cons_self p ps)
    simp only [monitor_loop, List.map_cons, List.flatten_cons, List.append_assoc,
      List.foldl_append]
    rw [ih _ (fun q hq => hps q (List.mem_cons_of_mem p hq)), poll_cycle_output,
      drain_output_eq_foldl _ _ (fun c hc => (hp.2 c hc).1), List.foldl_append]

theorem execute_output (st : Manager) (env : Env) (index : Int) (cb : Bool)
    (params : Option (List Byte)) (h : launched st env index) (hwf : env.child.wf) :
    (script_manager_execute st env index cb params).output_buffer =
      env.child.chunks.foldl store_output [] := by
  rw [execute_launched st env index cb params h]
  dsimp only
  split <;> exact monitor_loop_output cb _ _ _ hwf.1 hwf.2

theorem chunks_wf (c : ChildRun) (hwf : c.wf) :
    ∀ chunk ∈ c.chunks, 0 < chunk.length ∧ chunk.length < BUFFER_SIZE := by
  intro chunk hmem
  simp only [ChildRun.chunks, List.mem_append, List.mem_flatten, List.mem_map] at hmem
  rcases hmem with ⟨l, ⟨p, hp, rfl⟩, hl⟩ | hl
  · exact (hwf.1 p hp).2 chunk hl
  · exact hwf.2.2 chunk hl

theorem foldl_store_extends (chunks : List (List Byte)) (buf : List Byte) :
    buf <+: chunks.foldl store_output buf := by
  induction chunks generalizing buf with
  | nil => exact List.prefix_refl buf
  | cons c cs ih =>
    simp only [List.foldl_cons]
    refine List.IsPrefix.trans ?_ (ih _)
    unfold store_output
    split
    · exact List.prefix_append buf c
    · exact List.prefix_refl buf

theorem foldl_store_length_lt (chunks : List (List Byte)) (buf : List Byte)
    (h : buf.length < OUTPUT_BUFFER_SIZE) :
    (chunks.foldl store_output buf).length < OUTPUT_BUFFER_SIZE := by
  induction chunks generalizing buf with
  | nil => exact h
  | cons c cs ih =>
    simp only [List.foldl_cons]
    apply ih
    unfold store_output
    split
    · rw [List.length_append]; assumption
    · exact h

theorem foldl_store_fits (pre post : List (List Byte)) (buf : List Byte)
    (h : buf.length + pre.flatten.length < OUTPUT_BUFFER_SIZE) :
    (pre ++ post).foldl store_output buf = post.foldl store_output (buf ++ pre.flatten) := by
  induction pre generalizing buf with
  | nil => simp
  | cons c cs ih =>
    simp only [List.flatten_cons, List.length_append] at h
    have hc : buf.length + c.length < OUTPUT_BUFFER_SIZE := by omega
    simp only [List.cons_append, List.foldl_cons, store_output, hc, if_true, List.flatten_cons]
    rw [ih (buf ++ c) (by rw [List.length_append]; omega), List.append_assoc]

theorem foldl_store_sublist (chunks : List (List Byte)) (buf : List Byte) :
    ∃ kept : List (List Byte), kept.Sublist chunks ∧ chunks.foldl store_output buf = buf ++ kept.flatten := by
  induction chunks generalizing buf with
  | nil => exact ⟨[], List.Sublist.refl _, by simp⟩
  | cons c cs ih =>
    simp only [List.foldl_cons]
    by_cases hc : buf.length + c.length < OUTPUT_BUFFER_SIZE
    · obtain ⟨kept, hk, he⟩ := ih (buf ++ c)
      refine ⟨c :: kept, hk.cons₂ c, ?_⟩
      simp only [store_output, hc, if_true, he, List.flatten_cons, List.append_assoc]
    · obtain ⟨kept, hk, he⟩ := ih buf
      refine ⟨kept, hk.cons c, ?_⟩
      simp only [store_output, hc, if_false, he]

theorem foldl_store_full (chunks : List (List Byte)) (buf : List Byte)
    (h : ∀ chunk ∈ chunks, chunk.length < BUFFER_SIZE) :
    OUTPUT_BUFFER_SIZE - BUFFER_SIZE < (chunks.foldl store_output buf).length ∨
      chunks.foldl store_output buf = buf ++ chunks.flatten := by
  induction chunks generalizing buf with
  | nil => right; simp
  | cons c cs ih =>
    have hc : c.length < BUFFER_SIZE := h c (List.mem_cons_self c cs)
    have hcs : ∀ chunk ∈ cs, chunk.length < BUFFER_SIZE :=
      fun x hx => h x (List.mem_cons_of_mem c hx)
    simp only [List.foldl_cons]
    by_cases hfit : buf.length + c.length < OUTPUT_BUFFER_SIZE
    · simp only [store_output, hfit, if_true]
      rcases ih (buf ++ c) hcs with hl | he
      · exact Or.inl hl
      · right
        rw [he, List.flatten_cons, List.append_assoc]
    · left
      simp only [store_output, hfit, if_false]
      have hp := (foldl_store_extends cs buf).length_le
      simp only [OUTPUT_BUFFER_SIZE, BUFFER_SIZE] at hc hfit ⊢
      omega


theorem flatten_replicate_replicate (n k : Nat) (a : Byte) :
    (List.replicate n (List.replicate k a)).flatten = List.replicate (n * k) a := by
  induction n with
  | zero => simp
  | succ n ih =>
    rw [List.replicate_succ, List.flatten_cons, ih, List.append_replicate_replicate]
    congr 1
    ring

theorem output_child_launched (chunks : List (List Byte)) (status : Nat) :
    launched demo_manager (demo_env (output_child chunks status)) 0 :=
  ⟨by decide, by decide, rfl, rfl, fun h => Fork.noConfusion h⟩

theorem store_output_fits (buf chunk : List Byte)
    (h : buf.length + chunk.length < OUTPUT_BUFFER_SIZE) :
    store_output buf chunk = buf ++ chunk :=
  if_pos h

theorem store_output_full (buf chunk : List Byte)
    (h : ¬ buf.length + chunk.length < OUTPUT_BUFFER_SIZE) :
    store_output buf chunk = buf :=
  if_neg h

theorem late_fit_chunks_wf : (output_child late_fit_chunks 0).wf := by
  refine ⟨by simp [output_child], by simp [output_child, BUFFER_SIZE], ?_⟩
  intro chunk hmem
  simp only [output_child, late_fit_chunks, List.mem_append, List.mem_replicate, List.mem_cons,
    List.mem_singleton, List.not_mem_nil, or_false] at hmem
  rcases hmem with ⟨_, rfl⟩ | rfl | rfl | rfl
  · rw [List.length_replicate]; decide
  · rw [List.length_replicate]; decide
  · rw [List.length_replicate]; decide
  · decide

theorem full_chunks_flatten :
    (List.replicate 256 (List.replicate 255 (97 : Byte))).flatten = List.replicate 65280 97 := by
  rw [flatten_replicate_replicate]

theorem full_chunks_fit :
    ([] : List Byte).length +
      (List.replicate 256 (List.replicate 255 (97 : Byte))).flatten.length <
        OUTPUT_BUFFER_SIZE := by
  rw [full_chunks_flatten, List.length_replicate, List.length_nil, Nat.zero_add]
  decide

theorem late_fit_step1 :
    store_output (List.replicate 65280 97) (List.replicate 250 97) =
      List.replicate 65530 97 := by
  rw [store_output_fits _ _ (by
    rw [List.length_replicate, List.length_replicate]; decide),
    List.append_replicate_replicate]

theorem late_fit_step2 :
    store_output (List.replicate 65530 97) (List.replicate 10 98) =
      List.replicate 65530 97 := by
  rw [store_output_full _ _ (by
    rw [List.length_replicate, List.length_replicate]; decide)]

theorem late_fit_step3 :
    store_output (List.replicate 65530 97) [99] = List.replicate 65530 97 ++ [99] := by
  rw [store_output_fits _ _ (by
    rw [List.length_replicate, List.length_singleton]; decide)]

theorem late_fit_buffer :
    late_fit_chunks.foldl store_output [] = List.replicate 65530 97 ++ [99] := by
  unfold late_fit_chunks
  rw [foldl_store_fits _ _ _ full_chunks_fit, full_chunks_flatten, List.nil_append,
    List.foldl_cons, List.foldl_cons, List.foldl_cons, List.foldl_nil, late_fit_step1,
    late_fit_step2, late_fit_step3]

/-! ## Captured output (C5, C6) -/

/-- C5, counterexample: after reads of 65530 bytes `a`, a read of 10 bytes `b`
is dropped and the following read of 1 byte `c` is stored; the buffer, 65530
`a` then `c`, is not a prefix of the concatenation of the chunks. -/
theorem output_buffer_prefix_fails :
    (output_child late_fit_chunks 0).wf ∧
      launched demo_manager (demo_env (output_child late_fit_chunks 0)) 0 ∧
      (script_manager_execute demo_manager (demo_env (output_child late_fit_chunks 0)) 0 true
        none).output_buffer = List.replicate 65530 97 ++ [99] ∧
      (output_child late_fit_chunks 0).chunks.flatten =
        List.replicate 65530 97 ++ (List.replicate 10 98 ++ [99]) ∧
      ¬ ((script_manager_execute demo_manager (demo_env (output_child late_fit_chunks 0)) 0 true
        none).output_buffer <+: (output_child late_fit_chunks 0).chunks.flatten) := by
  have hb : (script_manager_execute demo_manager (demo_env (output_child late_fit_chunks 0)) 0
      true none).output_buffer = List.replicate 65530 97 ++ [99] := by
    rw [execute_output _ _ _ _ _ (output_child_launched _ _) late_fit_chunks_wf]
    exact late_fit_buffer
  have hc : (output_child late_fit_chunks 0).chunks.flatten =
      List.replicate 65530 97 ++ (List.replicate 10 98 ++ [99]) := by
    simp only [ChildRun.chunks, output_child, late_fit_chunks, List.map_nil, List.flatten_nil,
      List.nil_append, List.flatten_append, flatten_replicate_replicate, List.flatten_cons,
      List.append_nil]
    rw [← List.append_assoc, List.append_replicate_replicate]
  refine ⟨late_fit_chunks_wf, output_child_launched _ _, hb, hc, ?_⟩
  rw [hb, hc, List.prefix_append_right_inj]
  decide

/-- C5, amended: the captured buffer is built chunk by chunk, in order of
arrival: a chunk is stored whole behind the stored bytes when the stored size
plus its size is below 65536, and dropped whole otherwise, whatever happened
to earlier chunks (so a later, smaller chunk that still fits is stored after
a drop). Hence the buffer is made of whole chunks in their order, stays below
65536 bytes, begins with every leading run of chunks whose total size is
below 65536, and is the whole concatenation when that is shorter than 65536
bytes. -/
theorem captured_output_whole_chunks (st : Manager) (env : Env) (index : Int) (cb : Bool)
    (params : Option (List Byte)) (h : launched st env index) (hwf : env.child.wf) :
    (script_manager_execute st env index cb params).output_buffer =
        env.child.chunks.foldl
          (fun buf chunk =>
            if buf.length + chunk.length < OUTPUT_BUFFER_SIZE then buf ++ chunk else buf) [] ∧
      (env.child.chunks = [] →
        (script_manager_execute st env index cb params).output_buffer = []) ∧
      (∀ (env2 : Env) (chunk : List Byte), launched st env2 index → env2.child.wf →
        env2.child.chunks = env.child.chunks ++ [chunk] →
        (script_manager_execute st env2 index cb params).output_buffer =
          if (script_manager_execute st env index cb params).output_buffer.length +
              chunk.length < OUTPUT_BUFFER_SIZE
            then (script_manager_execute st env index cb params).output_buffer ++ chunk
            else (script_manager_execute st env index cb params).output_buffer) ∧
      (∃ kept : List (List Byte), kept.Sublist env.child.chunks ∧
        (script_manager_execute st env index cb params).output_buffer = kept.flatten) ∧
      (script_manager_execute st env index cb params).output_buffer.length
        < OUTPUT_BUFFER_SIZE ∧
      (∀ pre post : List (List Byte), env.child.chunks = pre ++ post →
        pre.flatten.length < OUTPUT_BUFFER_SIZE →
        pre.flatten <+: (script_manager_execute st env index cb params).output_buffer) ∧
      (env.child.chunks.flatten.length < OUTPUT_BUFFER_SIZE →
        (script_manager_execute st env index cb params).output_buffer =
          env.child.chunks.flatten) := by
  rw [execute_output st env index cb params h hwf]
  refine ⟨rfl, ?_, ?_, ?_, ?_, ?_, ?_⟩
  · intro hnil
    rw [hnil, List.foldl_nil]
  · intro env2 chunk h2 hwf2 hc
    rw [execute_output st env2 index cb params h2 hwf2, hc, List.foldl_append, List.foldl_cons,
      List.foldl_nil]
    rfl
  · obtain ⟨kept, hk, he⟩ := foldl_store_sublist env.child.chunks []
    exact ⟨kept, hk, by rw [he, List.nil_append]⟩
  · exact foldl_store_length_lt _ _ (by decide)
  · intro pre post hsplit hlen
    rw [hsplit, foldl_store_fits pre post [] (by simpa using hlen), List.nil_append]
    exact foldl_store_extends post pre.flatten
  · intro hlen
    have hfit := foldl_store_fits env.child.chunks [] [] (by simpa using hlen)
    rw [List.append_nil] at hfit
    rw [hfit, List.foldl_nil, List.nil_append]

theorem captured_output_whole_chunks_witness :
    launched demo_manager (demo_env (output_child [ascii "abc", ascii "de"] 0)) 0 ∧
      (output_child [ascii "abc", ascii "de"] 0).wf ∧
      (script_manager_execute demo_manager (demo_env (output_child [ascii "abc", ascii "de"] 0))
        0 true none).output_buffer = ascii "abcde" :=
  ⟨by decide, by decide,
    (captured_output_whole_chunks demo_manager
      (demo_env (output_child [ascii "abc", ascii "de"] 0)) 0 true none (by decide)
      (by decide)).2.2.2.2.2.2 (by decide)⟩

theorem big_chunks_wf : (output_child big_chunks 0).wf := by
  refine ⟨by simp [output_child], by simp [output_child, BUFFER_SIZE], ?_⟩
  intro chunk hmem
  simp only [output_child, big_chunks, List.mem_append, List.mem_replicate, List.mem_cons,
    List.not_mem_nil, or_false] at hmem
  rcases hmem with ⟨_, rfl⟩ | rfl
  · rw [List.length_replicate]; decide
  · rw [List.length_replicate]; decide

theorem big_chunks_total : (output_child big_chunks 0).chunks.flatten.length = 70000 := by
  simp only [ChildRun.chunks, output_child, big_chunks, List.map_nil, List.flatten_nil,
    List.nil_append, List.flatten_append, flatten_replicate_replicate, List.flatten_cons,
    List.append_nil, List.length_append, List.length_replicate]

/-- C6, counterexample: a child whose output is read as 70000 bytes (274 reads
of 255 bytes and one of 130) leaves fewer than 65536 bytes in the captured
output, so it does not hold exactly 65536 bytes. -/
theorem captured_output_never_65536 :
    (output_child big_chunks 0).wf ∧
      launched demo_manager (demo_env (output_child big_chunks 0)) 0 ∧
      (output_child big_chunks 0).chunks.flatten.length = 70000 ∧
      (script_manager_execute demo_manager (demo_env (output_child big_chunks 0)) 0 true
        none).output_buffer.length < 65536 ∧
      (script_manager_execute demo_manager (demo_env (output_child big_chunks 0)) 0 true
        none).output_buffer.length ≠ 65536 := by
  have hlt : (script_manager_execute demo_manager (demo_env (output_child big_chunks 0)) 0 true
      none).output_buffer.length < 65536 := by
    rw [execute_output _ _ _ _ _ (output_child_launched _ _) big_chunks_wf]
    exact foldl_store_length_lt _ _ (by decide)
  exact ⟨big_chunks_wf, output_child_launched _ _, big_chunks_total, hlt, Nat.ne_of_lt hlt⟩

/-- C6, amended: when the chunks read from the output channel total at least
65536 bytes, the captured output holds more than 65280 and fewer than 65536
bytes (at most 65535), it begins with every leading run of chunks whose total
size is below 65536, and the call returns the child's exit classification. -/
theorem captured_output_capacity (st : Manager) (env : Env) (index : Int) (cb : Bool)
    (params : Option (List Byte)) (h : launched st env index) (hwf : env.child.wf)
    (hbig : OUTPUT_BUFFER_SIZE ≤ env.child.chunks.flatten.length) :
    OUTPUT_BUFFER_SIZE - BUFFER_SIZE <
        (script_manager_execute st env index cb params).output_buffer.length ∧
      (script_manager_execute st env index cb params).output_buffer.length
        < OUTPUT_BUFFER_SIZE ∧
      (∀ pre post : List (List Byte), env.child.chunks = pre ++ post →
        pre.flatten.length < OUTPUT_BUFFER_SIZE →
        pre.flatten <+: (script_manager_execute st env index cb params).output_buffer) ∧
      (script_manager_execute st env index cb params).ret = exit_code_of env.child.status := by
  rw [execute_output st env index cb params h hwf, execute_ret st env index cb params h]
  have hlt : (env.child.chunks.foldl store_output []).length < OUTPUT_BUFFER_SIZE :=
    foldl_store_length_lt _ _ (by decide)
  refine ⟨?_, hlt, ?_, rfl⟩
  · rcases foldl_store_full env.child.chunks []
      (fun c hc => (chunks_wf env.child hwf c hc).2) with hl | he
    · exact hl
    · rw [he, List.nil_append] at hlt
      omega
  · intro pre post hsplit hlen
    rw [hsplit, foldl_store_fits pre post [] (by simpa using hlen), List.nil_append]
    exact foldl_store_extends post pre.flatten

theorem captured_output_capacity_witness :
    launched demo_manager (demo_env (output_child big_chunks 0)) 0 ∧
      (output_child big_chunks 0).wf ∧
      OUTPUT_BUFFER_SIZE ≤ (output_child big_chunks 0).chunks.flatten.length ∧
      OUTPUT_BUFFER_SIZE - BUFFER_SIZE <
        (script_manager_execute demo_manager (demo_env (output_child big_chunks 0)) 0 true
          none).output_buffer.length ∧
      (script_manager_execute demo_manager (demo_env (output_child big_chunks 0)) 0 true
          none).output_buffer.length < OUTPUT_BUFFER_SIZE :=
  have hbig : OUTPUT_BUFFER_SIZE ≤ (output_child big_chunks 0).chunks.flatten.length := by
    rw [big_chunks_total]; decide
  have hc := captured_output_capacity demo_manager (demo_env (output_child big_chunks 0)) 0 true
    none (output_child_launched _ _) big_chunks_wf hbig
  ⟨output_child_launched _ _, big_chunks_wf, hbig, hc.1, hc.2.1⟩


/-! ## Lemmas on `atoi` -/

theorem digits_value_append (u rest : List Byte) (sep : Byte) (acc : Nat)
    (hu : ∀ c ∈ u, isdigit c = true) (hsep : isdigit sep = false) :
    digits_value (u ++ sep :: rest) acc = digits_value u acc := by
  induction u generalizing acc with
  | nil => simp [digits_value, hsep]
  | cons d ds ih =>
    have hd : isdigit d = true := hu d (List.mem_cons_self d ds)
    simp only [List.cons_append, digits_value, hd, if_true]
    exact ih _ (fun c hc => hu c (List.mem_cons_of_mem d hc))

theorem isdigit_not_space_sign (d : Byte) (hd : isdigit d = true) :
    isspace d = false ∧ d.val ≠ 45 ∧ d.val ≠ 43 := by
  simp only [isdigit, Bool.and_eq_true, decide_eq_true_eq] at hd
  refine ⟨?_, by omega, by omega⟩
  simp only [isspace, Bool.or_eq_false_iff, Bool.and_eq_false_iff, decide_eq_false_iff_not]
  omega

theorem atoi_first_number (u rest : List Byte) (sep : Byte) (hne : u ≠ [])
    (hu : ∀ c ∈ u, isdigit c = true) (hsep : isdigit sep = false) :
    atoi (u ++ sep :: rest) = atoi u := by
  cases u with
  | nil => exact absurd rfl hne
  | cons d ds =>
    obtain ⟨h1, h2, h3⟩ := isdigit_not_space_sign d (hu d (List.mem_cons_self d ds))
    have hx := digits_value_append (d :: ds) rest sep 0 hu hsep
    simp only [List.cons_append] at hx
    simp only [atoi, strtol, List.cons_append, List.dropWhile_cons, h1, Bool.false_eq_true,
      if_false, h2, h3, hx]

theorem ui_update_progress_range (v : Int) :
    0 ≤ ui_update_progress v ∧ ui_update_progress v ≤ 100 := by
  unfold ui_update_progress
  dsimp only
  split <;> split <;> omega

theorem execute_calls_null (st : Manager) (env : Env) (index : Int)
    (params : Option (List Byte)) :
    (script_manager_execute st env index false params).calls = [] := by
  unfold script_manager_execute
  split
  · rfl
  · dsimp only
    split
    · rfl
    · split
      · rfl
      · split
        · rfl
        · split <;> simp [call_cb, monitor_loop_calls_none]

/-! ## Values passed to the callback (C7, C8) -/

/-- C7, counterexample: the fragments `"150"` and `"-5"` written to the
progress channel are passed to the callback as 150 and -5, outside 0..100. -/
theorem callback_value_out_of_range :
    (progress_child [ascii "150", ascii "-5"] 0).wf ∧
      launched demo_manager (demo_env (progress_child [ascii "150", ascii "-5"] 0)) 0 ∧
      (script_manager_execute demo_manager
        (demo_env (progress_child [ascii "150", ascii "-5"] 0)) 0 true none).calls =
          [0, 150, -5, 100] ∧
      ¬ (∀ v ∈ (script_manager_execute demo_manager
        (demo_env (progress_child [ascii "150", ascii "-5"] 0)) 0 true none).calls,
          0 ≤ v ∧ v ≤ 100) := by
  decide

/-- C7, amended: every value passed to the progress callback is the initial 0,
the final 100, or `atoi` of a fragment read from the progress channel, passed
on as parsed, without clamping; with a callback the sequence is exactly 0, the
parsed fragments in order, 100. The cap to 0..100 is applied by the callback
`ui_update_progress`, which leaves values already in 0..100 unchanged. -/
theorem callback_values_unclamped (st : Manager) (env : Env) (index : Int) (cb : Bool)
    (params : Option (List Byte)) (h : launched st env index) :
    (cb = true → (script_manager_execute st env index cb params).calls =
        0 :: (env.child.fragments.map atoi ++ [100])) ∧
      ∀ v ∈ (script_manager_execute st env index cb params).calls,
        (v = 0 ∨ v = 100 ∨ ∃ f ∈ env.child.fragments, v = atoi f) ∧
        (0 ≤ ui_update_progress v ∧ ui_update_progress v ≤ 100) ∧
        (0 ≤ v ∧ v ≤ 100 → ui_update_progress v = v) := by
  refine ⟨fun hcb => by rw [hcb, execute_calls st env index params h], ?_⟩
  intro v hv
  refine ⟨?_, ui_update_progress_range v, ?_⟩
  · cases cb with
    | false => rw [execute_calls_null] at hv; cases hv
    | true =>
      rw [execute_calls st env index params h] at hv
      simp only [List.mem_cons, List.mem_append, List.mem_map, List.mem_singleton,
        List.not_mem_nil, or_false] at hv
      rcases hv with h0 | ⟨f, hf, rfl⟩ | h100
      · exact Or.inl h0
      · exact Or.inr (Or.inr ⟨f, hf, rfl⟩)
      · exact Or.inr (Or.inl h100)
  · intro hr
    unfold ui_update_progress
    dsimp only
    split <;> split <;> omega

theorem callback_values_unclamped_witness :
    launched demo_manager (demo_env (progress_child [ascii "150"] 0)) 0 ∧
      (script_manager_execute demo_manager (demo_env (progress_child [ascii "150"] 0)) 0 true
        none).calls = 0 :: ((progress_child [ascii "150"] 0).fragments.map atoi ++ [100]) :=
  ⟨by decide, (callback_values_unclamped demo_manager
    (demo_env (progress_child [ascii "150"] 0)) 0 true none (by decide)).1 rfl⟩

/-- C8, counterexample: when one read of the progress channel returns the text
`"10\n50\n"`, the value passed to the callback for that cycle is 10, the
earlier update, and 50 is never delivered. -/
theorem coalesced_fragment_delivers_first :
    (progress_child [ascii "10\n50\n"] 0).wf ∧
      launched demo_manager (demo_env (progress_child [ascii "10\n50\n"] 0)) 0 ∧
      (script_manager_execute demo_manager (demo_env (progress_child [ascii "10\n50\n"] 0)) 0
        true none).calls = [0, 10, 100] ∧
      (50 : Int) ∉ (script_manager_execute demo_manager
        (demo_env (progress_child [ascii "10\n50\n"] 0)) 0 true none).calls := by
  decide

/-- C8, amended: in a polling cycle whose fragment starts with a decimal number
`u` followed by a non-digit (such as the newline before further updates), the
single value delivered to the callback for that cycle is `atoi u`, the first
update of the fragment; whatever follows it in the fragment is not delivered. -/
theorem poll_cycle_delivers_first (p : Poll) (m : Monitor) (u rest : List Byte) (sep : Byte)
    (hp : p.progress = u ++ sep :: rest) (hne : u ≠ [])
    (hu : ∀ c ∈ u, isdigit c = true) (hsep : isdigit sep = false) :
    (poll_cycle true p m).calls = m.calls ++ [atoi u] := by
  have hlen : 0 < p.progress.length := by
    rw [hp]; simp
  rw [poll_cycle_calls, if_pos hlen, hp, atoi_first_number u rest sep hne hu hsep]
  rfl

set_option maxRecDepth 4096 in
theorem poll_cycle_delivers_first_witness :
    (poll_cycle true { progress := ascii "10\n50\n", output := [] }
        { progress := 0, output_buffer := [], calls := [0] }).calls = [0] ++ [atoi (ascii "10")] ∧
      atoi (ascii "10") = 10 :=
  ⟨poll_cycle_delivers_first { progress := ascii "10\n50\n", output := [] }
    { progress := 0, output_buffer := [], calls := [0] } (ascii "10") (ascii "50\n") 10
    rfl (by decide) (by decide) (by decide), by decide⟩


/-! ## The stored log path (C9) -/

theorem execute_invalid_index (st : Manager) (env : Env) (index : Int) (cb : Bool)
    (params : Option (List Byte)) (h : index < 0 ∨ index ≥ (st.script_count : Int)) :
    script_manager_execute st env index cb params =
      { ret := 1, st := st, calls := [], output_buffer := [], events := [] } := by
  unfold script_manager_execute
  rw [if_pos h]

theorem write_log_path_opened (log_dir : List Byte) (info : ScriptInfo) (exit_code : Int)
    (output_buffer : List Byte) (now : Tm) (fopen_ok : Bool) (p : List Byte)
    (hne : (write_log log_dir info exit_code output_buffer now fopen_ok).1 ≠ [])
    (hp : (write_log log_dir info exit_code output_buffer now fopen_ok).1 = p) :
    Event.fopen p true ∈ (write_log log_dir info exit_code output_buffer now fopen_ok).2 := by
  unfold write_log at hne hp ⊢
  dsimp only at hne hp ⊢
  by_cases h1 : log_path_length log_dir (strftime now) (safe_name info.name) < MAX_PATH_LENGTH
  · by_cases h2 : fopen_ok = true
    · simp only [h1, h2, if_true] at hp ⊢
      subst hp
      simp
    · simp [h1, h2] at hne
  · simp [h1] at hne

theorem execute_log_path_opened (st : Manager) (env : Env) (index : Int) (cb : Bool)
    (params : Option (List Byte)) (p : List Byte)
    (hp : script_manager_get_log_file (script_manager_execute st env index cb params).st
      = some p)
    (hv : 0 ≤ index ∧ index < (st.script_count : Int)) :
    Event.fopen p true ∈ (script_manager_execute st env index cb params).events := by
  have hidx : ¬ (index < 0 ∨ index ≥ (st.script_count : Int)) := by omega
  unfold script_manager_get_log_file at hp
  unfold script_manager_execute at hp ⊢
  rw [if_neg hidx] at hp ⊢
  dsimp only at hp ⊢
  split
  · rename_i h1; simp [h1] at hp
  · split
    · rename_i h1 h2; simp [h1, h2] at hp
    · rename_i h1 h2
      split
      · rename_i hf; simp [h1, h2, hf] at hp
      · rename_i pid hf
        simp only [h1, h2, hf, Bool.not_true, Bool.false_eq_true, if_false] at hp
        split
        · rename_i hex
          simp only [hex, ne_eq, not_false_eq_true, if_true, ite_not] at hp
          split at hp
          · cases hp
          · rename_i hne
            simp only [Option.some.injEq] at hp
            exact List.mem_append_right _ (write_log_path_opened _ _ _ _ _ _ p hne hp)
        · rename_i hex
          simp [hex] at hp

theorem execute_ignores_old_path (st : Manager) (env : Env) (index : Int) (cb : Bool)
    (params : Option (List Byte)) (old : List Byte)
    (hv : 0 ≤ index ∧ index < (st.script_count : Int)) :
    (script_manager_execute { st with current_log_file := old } env index cb params).st =
      (script_manager_execute st env index cb params).st := by
  have hidx : ¬ (index < 0 ∨ index ≥ (st.script_count : Int)) := by omega
  unfold script_manager_execute
  rw [if_neg hidx, if_neg hidx]
  rfl

/-- C9, counterexample: a call with the invalid index 7 returns 1 and leaves
the log path of an earlier execution in place, so
`script_manager_get_log_file` still returns it although this call performed
no action at all. -/
theorem invalid_index_keeps_stale_log_path :
    (script_manager_execute stale_manager (demo_env (quiet_child 0)) 7 true none).ret = 1 ∧
      (script_manager_execute stale_manager (demo_env (quiet_child 0)) 7 true none).events = [] ∧
      script_manager_get_log_file
        (script_manager_execute stale_manager (demo_env (quiet_child 0)) 7 true none).st =
          some (ascii "/home/user/logs/20250312_130831_Hello_world.log") := by
  decide

/-- C9, amended: for every call with a valid index, whatever its outcome, the
stored log path is reset at the start of the call: the state after the call
does not depend on the path stored before it, and a path returned by
`script_manager_get_log_file` afterwards is one this very call opened for
writing. A call with an invalid index returns 1 before the reset and leaves
the state, stored path included, unchanged. -/
theorem execute_resets_log_path (st : Manager) (env : Env) (index : Int) (cb : Bool)
    (params : Option (List Byte)) (hv : 0 ≤ index ∧ index < (st.script_count : Int)) :
    (∀ old : List Byte,
        (script_manager_execute { st with current_log_file := old } env index cb params).st =
          (script_manager_execute st env index cb params).st) ∧
      (∀ p : List Byte,
        script_manager_get_log_file (script_manager_execute st env index cb params).st = some p →
          Event.fopen p true ∈ (script_manager_execute st env index cb params).events) ∧
      (∀ bad : Int, bad < 0 ∨ bad ≥ (st.script_count : Int) →
        (script_manager_execute st env bad cb params).ret = 1 ∧
        (script_manager_execute st env bad cb params).st = st) := by
  refine ⟨fun old => execute_ignores_old_path st env index cb params old hv,
    fun p hp => execute_log_path_opened st env index cb params p hp hv, ?_⟩
  intro bad hbad
  rw [execute_invalid_index st env bad cb params hbad]
  exact ⟨rfl, rfl⟩

theorem execute_resets_log_path_witness :
    (0 ≤ (0 : Int) ∧ (0 : Int) < (demo_manager.script_count : Int)) ∧
      script_manager_get_log_file
        (script_manager_execute stale_manager (demo_env (quiet_child 0)) 0 true none).st = none ∧
      (script_manager_execute stale_manager (demo_env (quiet_child 0)) 0 true none).st =
        (script_manager_execute demo_manager (demo_env (quiet_child 0)) 0 true none).st :=
  ⟨by decide, by decide,
    (execute_resets_log_path demo_manager (demo_env (quiet_child 0)) 0 true none
      (by decide)).1 (ascii "/home/user/logs/20250312_130831_Hello_world.log")⟩


/-! ## Launch failures (C10) -/

theorem execute_launch_failure (st : Manager) (env : Env) (index : Int) (cb : Bool)
    (params : Option (List Byte)) (hv : 0 ≤ index ∧ index < (st.script_count : Int))
    (hfail : env.pipe_output = false ∨ env.pipe_progress = false ∨ env.fork = Fork.failed) :
    (script_manager_execute st env index cb params).ret =
        (if env.pipe_output = true ∧ env.pipe_progress = true then 3 else 2) ∧
      (script_manager_execute st env index cb params).calls = [] ∧
      (script_manager_execute st env index cb params).st.current_log_file = [] := by
  have hidx : ¬ (index < 0 ∨ index ≥ (st.script_count : Int)) := by omega
  unfold script_manager_execute
  rw [if_neg hidx]
  dsimp only
  cases h1 : env.pipe_output with
  | false => simp
  | true =>
    cases h2 : env.pipe_progress with
    | false => simp
    | true =>
      cases h3 : env.fork with
      | failed => simp
      | parent pid => simp [h1, h2, h3] at hfail

/-- C10, counterexample: when `pipe` fails the function returns 2 and when
`fork` fails it returns 3, and these are also the values it returns for a
child that ran and exited with status 2, respectively 3. -/
theorem launch_failure_collides_with_exit_code :
    (script_manager_execute demo_manager pipe_failure_env 0 true none).ret = 2 ∧
      launched demo_manager (demo_env (quiet_child (W_EXITCODE 2 0))) 0 ∧
      (script_manager_execute demo_manager (demo_env (quiet_child (W_EXITCODE 2 0))) 0 true
        none).ret = 2 ∧
      (script_manager_execute demo_manager fork_failure_env 0 true none).ret = 3 ∧
      launched demo_manager (demo_env (quiet_child (W_EXITCODE 3 0))) 0 ∧
      (script_manager_execute demo_manager (demo_env (quiet_child (W_EXITCODE 3 0))) 0 true
        none).ret = 3 := by
  decide

/-- C10, amended: on a launch failure the function returns 2 when channel
creation failed and 3 when process creation failed. The value is never 0, no
callback is called and no log path is stored, but the value is not
distinguishable from a script exit code: a child that ran and exited with
status `c` in 0..255 gives the same return value exactly when `c` is that
code (2, respectively 3). -/
theorem launch_failure_codes (st : Manager) (env : Env) (index : Int) (cb : Bool)
    (params : Option (List Byte)) (hv : 0 ≤ index ∧ index < (st.script_count : Int))
    (hfail : env.pipe_output = false ∨ env.pipe_progress = false ∨ env.fork = Fork.failed) :
    (script_manager_execute st env index cb params).ret =
        (if env.pipe_output = true ∧ env.pipe_progress = true then 3 else 2) ∧
      (script_manager_execute st env index cb params).ret ≠ 0 ∧
      (script_manager_execute st env index cb params).calls = [] ∧
      script_manager_get_log_file (script_manager_execute st env index cb params).st = none ∧
      ∀ (env2 : Env) (c : Nat), launched st env2 index → c ≤ 255 →
        env2.child.status = W_EXITCODE c 0 →
        ((script_manager_execute st env2 index cb params).ret =
          (script_manager_execute st env index cb params).ret ↔
            (c : Int) = (if env.pipe_output = true ∧ env.pipe_progress = true then 3 else 2)) := by
  obtain ⟨hr, hc, hl⟩ := execute_launch_failure st env index cb params hv hfail
  refine ⟨hr, ?_, hc, ?_, ?_⟩
  · rw [hr]; split <;> decide
  · simp [script_manager_get_log_file, hl]
  · intro env2 c h2 hc2 hs2
    rw [hr, execute_ret st env2 index cb params h2, hs2, exit_code_of_exited c hc2]

theorem launch_failure_codes_witness :
    (0 ≤ (0 : Int) ∧ (0 : Int) < (demo_manager.script_count : Int)) ∧
      (pipe_failure_env.pipe_output = false ∨ pipe_failure_env.pipe_progress = false ∨
        pipe_failure_env.fork = Fork.failed) ∧
      (script_manager_execute demo_manager pipe_failure_env 0 true none).ret =
        (if pipe_failure_env.pipe_output = true ∧ pipe_failure_env.pipe_progress = true
          then 3 else 2) :=
  ⟨by decide, by decide,
    (launch_failure_codes demo_manager pipe_failure_env 0 true none (by decide) (by decide)).1⟩

/-! ## Lemmas on logged executions -/

theorem write_log_fst (log_dir : List Byte) (info : ScriptInfo) (exit_code : Int)
    (output_buffer : List Byte) (now : Tm) (fopen_ok : Bool) :
    (write_log log_dir info exit_code output_buffer now fopen_ok).1 =
      if log_path_length log_dir (strftime now) (safe_name info.name) < MAX_PATH_LENGTH ∧
          fopen_ok = true
        then log_path log_dir (strftime now) (safe_name info.name) else [] := by
  unfold write_log
  dsimp only
  by_cases h1 : log_path_length log_dir (strftime now) (safe_name info.name) < MAX_PATH_LENGTH
  · by_cases h2 : fopen_ok = true
    · simp [h1, h2]
    · simp [h1, h2]
  · simp [h1]

theorem log_path_length_eq (log_dir timestamp safe : List Byte) :
    (log_path log_dir timestamp safe).length = log_path_length log_dir timestamp safe := by
  have h1 : (ascii "/").length = 1 := by decide
  have h2 : (ascii "_").length = 1 := by decide
  have h3 : (ascii ".log").length = 4 := by decide
  simp only [log_path, log_path_length, List.length_append, h1, h2, h3]

theorem log_path_ne_nil (log_dir timestamp safe : List Byte) :
    log_path log_dir timestamp safe ≠ [] := by
  intro h
  have hl := log_path_length_eq log_dir timestamp safe
  rw [h] at hl
  simp only [log_path_length, List.length_nil] at hl
  omega

theorem not_launched_cases (st : Manager) (env : Env) (index : Int)
    (hv : 0 ≤ index ∧ index < (st.script_count : Int)) (h : ¬ launched st env index) :
    env.pipe_output = false ∨ env.pipe_progress = false ∨ env.fork = Fork.failed := by
  unfold launched at h
  cases h1 : env.pipe_output with
  | false => exact Or.inl rfl
  | true =>
    cases h2 : env.pipe_progress with
    | false => exact Or.inr (Or.inl rfl)
    | true =>
      right; right
      by_contra h3
      exact h ⟨hv.1, hv.2, h1, h2, h3⟩

theorem execute_logged (st : Manager) (env : Env) (index : Int) (cb : Bool)
    (params : Option (List Byte)) (h : logged st env index) :
    (script_manager_execute st env index cb params).ret = exit_code_of env.child.status ∧
      (script_manager_execute st env index cb params).st.current_log_file =
        log_path st.log_dir (strftime env.now) (safe_name (st.script index).name) ∧
      (script_manager_execute st env index cb params).events =
        [Event.pipe true, Event.pipe true, Event.fork true,
          Event.execl (execl_argv (st.script index).path params)] ++
        ([Event.time, Event.fopen
            (log_path st.log_dir (strftime env.now) (safe_name (st.script index).name)) true] ++
          (log_lines (st.script index) (exit_code_of env.child.status)
            (script_manager_execute st env index cb params).output_buffer).map Event.fprintf ++
          [Event.fclose]) := by
  obtain ⟨hl, hex, hfit, hok⟩ := h
  refine ⟨execute_ret st env index cb params hl, ?_, ?_⟩
  · rw [execute_log_path st env index cb params hl, if_pos hex, write_log_fst,
      if_pos ⟨hfit, hok⟩]
  · rw [execute_events st env index cb params hl, if_pos hex]
    unfold write_log
    simp only [hfit, hok, if_true]

theorem get_log_file_some_iff (st : Manager) (env : Env) (index : Int) (cb : Bool)
    (params : Option (List Byte)) (p : List Byte)
    (hv : 0 ≤ index ∧ index < (st.script_count : Int)) :
    script_manager_get_log_file (script_manager_execute st env index cb params).st = some p ↔
      logged st env index ∧
        p = log_path st.log_dir (strftime env.now) (safe_name (st.script index).name) := by
  unfold script_manager_get_log_file
  by_cases hl : launched st env index
  · rw [execute_log_path st env index cb params hl, write_log_fst]
    by_cases hex : exit_code_of env.child.status ≠ 0
    · by_cases hfo : log_path_length st.log_dir (strftime env.now)
          (safe_name (st.script index).name) < MAX_PATH_LENGTH ∧ env.fopen_ok = true
      · simp only [if_pos hex, if_pos hfo, if_pos (log_path_ne_nil _ _ _), Option.some.injEq]
        constructor
        · intro h; exact ⟨⟨hl, hex, hfo.1, hfo.2⟩, h.symm⟩
        · intro h; exact h.2.symm
      · simp only [if_pos hex, if_neg hfo, ne_eq, not_true_eq_false, if_false, false_iff]
        constructor
        · intro h; cases h
        · rintro ⟨⟨_, _, h1, h2⟩, _⟩
          exact absurd ⟨h1, h2⟩ hfo
    · simp only [if_neg hex, ne_eq, not_true_eq_false, if_false, false_iff]
      constructor
      · intro h; cases h
      · rintro ⟨⟨_, h1, _, _⟩, _⟩
        exact absurd h1 hex
  · have hcur := (execute_launch_failure st env index cb params hv
      (not_launched_cases st env index hv hl)).2.2
    rw [hcur]
    simp only [ne_eq, not_true_eq_false, if_false, false_iff]
    constructor
    · intro h; cases h
    · rintro ⟨⟨h1, _, _, _⟩, _⟩
      exact absurd h1 hl

theorem log_text_launch (argv : List (List Byte)) (rest : List Event) :
    log_text ([Event.pipe true, Event.pipe true, Event.fork true, Event.execl argv] ++ rest) =
      log_text rest := by
  simp [log_text, Event.written]

theorem filterMap_written_lines (lines : List (List Byte)) :
    List.filterMap Event.written (lines.map Event.fprintf ++ [Event.fclose]) = lines := by
  induction lines with
  | nil => simp [Event.written]
  | cons a l ih => simpa [Event.written] using ih

theorem log_text_block (path : List Byte) (lines : List (List Byte)) :
    log_text ([Event.time, Event.fopen path true] ++ lines.map Event.fprintf ++ [Event.fclose]) =
      lines.flatten := by
  simp only [log_text, List.cons_append, List.nil_append, List.filterMap_cons, Event.written]
  rw [filterMap_written_lines]

theorem execute_log_text (st : Manager) (env : Env) (index : Int) (cb : Bool)
    (params : Option (List Byte)) (h : logged st env index) :
    log_text (script_manager_execute st env index cb params).events =
      (log_lines (st.script index) (script_manager_execute st env index cb params).ret
        (script_manager_execute st env index cb params).output_buffer).flatten := by
  obtain ⟨hr, _, he⟩ := execute_logged st env index cb params h
  rw [he, hr, log_text_launch, log_text_block]

theorem fmt_s_of_no_nul (a : List Byte) (h : ∀ c ∈ a, c.val ≠ 0) : fmt_s a = a := by
  unfold fmt_s
  rw [List.takeWhile_eq_self_iff]
  intro c hc
  simpa using h c hc

/-! ## The log text (C11) -/

set_option maxRecDepth 8192 in
/-- C11, counterexample: an execution started with the parameter `--fast`
(passed to `execl`) and exit code 2 writes the line `Command: ` followed by the
script path only; the log text differs from the text with
`Command: <path> --fast`. -/
theorem log_command_omits_params :
    logged demo_manager (demo_env (failing_child [ascii "boom"])) 0 ∧
      Event.execl [ascii "bash", ascii "/opt/scripts/hello_world.sh", ascii "--fast"] ∈
        (script_manager_execute demo_manager (demo_env (failing_child [ascii "boom"])) 0 true
          (some (ascii "--fast"))).events ∧
      log_text (script_manager_execute demo_manager (demo_env (failing_child [ascii "boom"])) 0
          true (some (ascii "--fast"))).events =
        ascii ("===== Hello world =====\n\nCommand: /opt/scripts/hello_world.sh\n\n" ++
          "Exit code: 2\n\nOutput:\nboom\n") ∧
      log_text (script_manager_execute demo_manager (demo_env (failing_child [ascii "boom"])) 0
          true (some (ascii "--fast"))).events ≠
        spec_log_text demo_script (some (ascii "--fast")) 2 (ascii "boom") := by
  decide

/-- C11, amended: for every logged execution the log text consists, in this
order, of the title line `===== <name> =====`, a blank line, the line
`Command: ` followed by the script path only (the parameter string is never
written: the text is the same whatever was supplied), a blank line, the line
`Exit code: ` followed by the decimal exit code, a blank line, and `Output:`,
a newline, the captured buffer up to its first NUL byte, and a newline. Without
a parameter string and without NUL bytes in the captured output this is the
text of the specification. -/
theorem log_text_format (st : Manager) (env : Env) (index : Int) (cb : Bool)
    (params : Option (List Byte)) (h : logged st env index) :
    log_text (script_manager_execute st env index cb params).events =
        ascii "===== " ++ fmt_s (st.script index).name ++ ascii " =====\n\n" ++
          (ascii "Command: " ++ fmt_s (st.script index).path ++ ascii "\n\n") ++
          (ascii "Exit code: " ++ fmt_d (script_manager_execute st env index cb params).ret ++
            ascii "\n\n") ++
          (ascii "Output:\n" ++
            fmt_s (script_manager_execute st env index cb params).output_buffer ++ ascii "\n") ∧
      log_text (script_manager_execute st env index cb params).events =
        log_text (script_manager_execute st env index cb none).events ∧
      ((∀ c ∈ (st.script index).name, c.val ≠ 0) → (∀ c ∈ (st.script index).path, c.val ≠ 0) →
        (∀ c ∈ (script_manager_execute st env index cb params).output_buffer, c.val ≠ 0) →
        log_text (script_manager_execute st env index cb params).events =
          spec_log_text (st.script index) none
            (script_manager_execute st env index cb params).ret
            (script_manager_execute st env index cb params).output_buffer) := by
  have hout : ∀ q : Option (List Byte),
      (script_manager_execute st env index cb q).output_buffer =
        (script_manager_execute st env index cb none).output_buffer := by
    intro q
    rw [execute_launched st env index cb q h.1, execute_launched st env index cb none h.1]
    dsimp only
    split <;> rfl
  have hret : ∀ q : Option (List Byte),
      (script_manager_execute st env index cb q).ret = exit_code_of env.child.status :=
    fun q => execute_ret st env index cb q h.1
  refine ⟨?_, ?_, ?_⟩
  · rw [execute_log_text st env index cb params h]
    simp only [log_lines, List.flatten_cons, List.flatten_nil, List.append_nil,
      List.append_assoc]
  · rw [execute_log_text st env index cb params h, execute_log_text st env index cb none h,
      hout params, hret params, hret none]
  · intro hn hp ho
    rw [execute_log_text st env index cb params h]
    simp only [log_lines, spec_log_text, fmt_s_of_no_nul _ hn, fmt_s_of_no_nul _ hp,
      fmt_s_of_no_nul _ ho, List.flatten_cons, List.flatten_nil, List.append_nil,
      List.append_assoc]

set_option maxRecDepth 8192 in
theorem log_text_format_witness :
    logged demo_manager (demo_env (failing_child [ascii "boom"])) 0 ∧
      log_text (script_manager_execute demo_manager (demo_env (failing_child [ascii "boom"])) 0
          true (some (ascii "--fast"))).events =
        log_text (script_manager_execute demo_manager (demo_env (failing_child [ascii "boom"])) 0
          true none).events :=
  ⟨by decide, (log_text_format demo_manager (demo_env (failing_child [ascii "boom"])) 0 true
    (some (ascii "--fast")) (by decide)).2.1⟩

/-! ## Lemmas on reading the log text back -/

theorem split_at_sep (sep : Byte) (a b x y : List Byte) (ha : sep ∉ a) (hb : sep ∉ b)
    (h : a ++ sep :: x = b ++ sep :: y) : a = b ∧ x = y := by
  induction a generalizing b with
  | nil =>
    cases b with
    | nil => simpa using h
    | cons d ds =>
      simp only [List.nil_append, List.cons_append, List.cons.injEq] at h
      exact absurd (h.1 ▸ List.mem_cons_self d ds) hb
  | cons c cs ih =>
    cases b with
    | nil =>
      simp only [List.nil_append, List.cons_append, List.cons.injEq] at h
      exact absurd (h.1 ▸ List.mem_cons_self c cs) ha
    | cons d ds =>
      simp only [List.cons_append, List.cons.injEq] at h
      obtain ⟨h1, h2⟩ := ih ds (fun hm => ha (List.mem_cons_of_mem c hm))
        (fun hm => hb (List.mem_cons_of_mem d hm)) h.2
      exact ⟨by rw [h.1, h1], h2⟩

theorem record_text_inj (n1 n2 p1 p2 d1 d2 o1 o2 : List Byte)
    (hn1 : (10 : Byte) ∉ n1) (hn2 : (10 : Byte) ∉ n2) (hp1 : (10 : Byte) ∉ p1)
    (hp2 : (10 : Byte) ∉ p2) (hd1 : (10 : Byte) ∉ d1) (hd2 : (10 : Byte) ∉ d2)
    (h : ascii "===== " ++ (n1 ++ (ascii " =====" ++ 10 :: (ascii "\nCommand: " ++ (p1 ++
          10 :: (ascii "\nExit code: " ++ (d1 ++ 10 :: (ascii "\nOutput:\n" ++ (o1 ++
          ascii "\n")))))))) =
        ascii "===== " ++ (n2 ++ (ascii " =====" ++ 10 :: (ascii "\nCommand: " ++ (p2 ++
          10 :: (ascii "\nExit code: " ++ (d2 ++ 10 :: (ascii "\nOutput:\n" ++ (o2 ++
          ascii "\n"))))))))) :
    n1 = n2 ∧ p1 = p2 ∧ d1 = d2 ∧ o1 = o2 := by
  have hs : (10 : Byte) ∉ ascii " =====" := by decide
  have h1 := List.append_cancel_left h
  rw [← List.append_assoc, ← List.append_assoc n2] at h1
  obtain ⟨ha, hb⟩ := split_at_sep 10 _ _ _ _
    (by simp only [List.mem_append, not_or]; exact ⟨hn1, hs⟩)
    (by simp only [List.mem_append, not_or]; exact ⟨hn2, hs⟩) h1
  have hn := List.append_cancel_right ha
  have h2 := List.append_cancel_left hb
  obtain ⟨hp, hc⟩ := split_at_sep 10 _ _ _ _ hp1 hp2 h2
  have h3 := List.append_cancel_left hc
  obtain ⟨hd, he⟩ := split_at_sep 10 _ _ _ _ hd1 hd2 h3
  have h4 := List.append_cancel_left he
  exact ⟨hn, hp, hd, List.append_cancel_right h4⟩

set_option maxRecDepth 100000 in
theorem fmt_d_byte_no_newline : ∀ n : Fin 256, (10 : Byte) ∉ fmt_d (n.val : Int) := by
  decide

set_option maxRecDepth 100000 in
theorem atoi_fmt_d_byte : ∀ n : Fin 256, atoi (fmt_d (n.val : Int)) = n.val := by
  decide

theorem exit_code_of_range (status : Nat) :
    ∃ n : Nat, n ≤ 255 ∧ exit_code_of status = (n : Int) := by
  unfold exit_code_of
  split
  · exact ⟨WEXITSTATUS status, by unfold WEXITSTATUS; omega, rfl⟩
  · exact ⟨5, by decide, rfl⟩

theorem log_lines_flatten (info : ScriptInfo) (exit_code : Int) (out : List Byte) :
    (log_lines info exit_code out).flatten =
      ascii "===== " ++ (fmt_s info.name ++ (ascii " =====" ++ 10 :: (ascii "\nCommand: " ++
        (fmt_s info.path ++ 10 :: (ascii "\nExit code: " ++ (fmt_d exit_code ++
        10 :: (ascii "\nOutput:\n" ++ (fmt_s out ++ ascii "\n")))))))) := by
  have e1 : ascii " =====\n\n" = ascii " =====" ++ 10 :: ascii "\n" := by decide
  have e2 : ascii "Command: " = ascii "Command: " := rfl
  have e3 : ascii "\n\n" = 10 :: ascii "\n" := by decide
  have e4 : ascii "\nCommand: " = ascii "\n" ++ ascii "Command: " := by decide
  have e5 : ascii "\nExit code: " = ascii "\n" ++ ascii "Exit code: " := by decide
  have e6 : ascii "\nOutput:\n" = ascii "\n" ++ ascii "Output:\n" := by decide
  simp only [log_lines, List.flatten_cons, List.flatten_nil, List.append_nil, e1, e3, e4, e5, e6,
    List.append_assoc, List.cons_append]

theorem not_mem_of_ne_newline (a : List Byte) (h : ∀ c ∈ a, c.val ≠ 0 ∧ c.val ≠ 10) :
    (10 : Byte) ∉ a := by
  intro hm
  exact (h 10 hm).2 rfl

/-! ## Round trip of the log record (C12) -/

set_option maxRecDepth 8192 in
/-- C12, counterexample: the captured buffers `a NUL b` and `a` differ, yet
both executions write the same log text, whose Output section holds the single
byte `a`: the text does not determine the buffer, and for the first execution
the bytes of the Output section are not the captured buffer. -/
theorem log_output_stops_at_nul :
    logged demo_manager (demo_env (failing_child [[97, 0, 98]])) 0 ∧
      (failing_child [[97, 0, 98]]).wf ∧
      logged demo_manager (demo_env (failing_child [[97]])) 0 ∧
      (script_manager_execute demo_manager (demo_env (failing_child [[97, 0, 98]])) 0 true
        none).output_buffer = [97, 0, 98] ∧
      (script_manager_execute demo_manager (demo_env (failing_child [[97]])) 0 true
        none).output_buffer = [97] ∧
      log_text (script_manager_execute demo_manager (demo_env (failing_child [[97, 0, 98]])) 0
          true none).events =
        log_text (script_manager_execute demo_manager (demo_env (failing_child [[97]])) 0 true
          none).events ∧
      log_text (script_manager_execute demo_manager (demo_env (failing_child [[97, 0, 98]])) 0
          true none).events =
        ascii ("===== Hello world =====\n\nCommand: /opt/scripts/hello_world.sh\n\n" ++
          "Exit code: 2\n\nOutput:\na\n") := by
  decide

/-- C12, amended: when the script names and paths contain neither a NUL byte
nor a newline and the captured buffers contain no NUL byte, the text written
to the log file determines script name, script path, exit code and captured
output uniquely (two logged executions with the same log text agree on all
four), and the Output section is `Output:`, a newline, the captured buffer
byte for byte, and a newline. -/
theorem log_record_round_trip (st1 st2 : Manager) (env1 env2 : Env) (index1 index2 : Int)
    (cb : Bool) (params1 params2 : Option (List Byte))
    (h1 : logged st1 env1 index1) (h2 : logged st2 env2 index2)
    (hn1 : ∀ c ∈ (st1.script index1).name, c.val ≠ 0 ∧ c.val ≠ 10)
    (hn2 : ∀ c ∈ (st2.script index2).name, c.val ≠ 0 ∧ c.val ≠ 10)
    (hp1 : ∀ c ∈ (st1.script index1).path, c.val ≠ 0 ∧ c.val ≠ 10)
    (hp2 : ∀ c ∈ (st2.script index2).path, c.val ≠ 0 ∧ c.val ≠ 10)
    (ho1 : ∀ c ∈ (script_manager_execute st1 env1 index1 cb params1).output_buffer, c.val ≠ 0)
    (ho2 : ∀ c ∈ (script_manager_execute st2 env2 index2 cb params2).output_buffer, c.val ≠ 0)
    (h : log_text (script_manager_execute st1 env1 index1 cb params1).events =
      log_text (script_manager_execute st2 env2 index2 cb params2).events) :
    ((st1.script index1).name = (st2.script index2).name ∧
        (st1.script index1).path = (st2.script index2).path ∧
        (script_manager_execute st1 env1 index1 cb params1).ret =
          (script_manager_execute st2 env2 index2 cb params2).ret ∧
        (script_manager_execute st1 env1 index1 cb params1).output_buffer =
          (script_manager_execute st2 env2 index2 cb params2).output_buffer) ∧
      (log_lines (st1.script index1) (script_manager_execute st1 env1 index1 cb params1).ret
          (script_manager_execute st1 env1 index1 cb params1).output_buffer).getLast? =
        some (ascii "Output:\n" ++
          (script_manager_execute st1 env1 index1 cb params1).output_buffer ++ ascii "\n") := by
  have hr1 := execute_ret st1 env1 index1 cb params1 h1.1
  have hr2 := execute_ret st2 env2 index2 cb params2 h2.1
  obtain ⟨c1, hc1, he1⟩ := exit_code_of_range env1.child.status
  obtain ⟨c2, hc2, he2⟩ := exit_code_of_range env2.child.status
  rw [execute_log_text st1 env1 index1 cb params1 h1,
    execute_log_text st2 env2 index2 cb params2 h2, log_lines_flatten, log_lines_flatten,
    fmt_s_of_no_nul _ (fun c hc => (hn1 c hc).1), fmt_s_of_no_nul _ (fun c hc => (hn2 c hc).1),
    fmt_s_of_no_nul _ (fun c hc => (hp1 c hc).1), fmt_s_of_no_nul _ (fun c hc => (hp2 c hc).1),
    fmt_s_of_no_nul _ ho1, fmt_s_of_no_nul _ ho2, hr1, hr2, he1, he2] at h
  have hd1 := fmt_d_byte_no_newline ⟨c1, by omega⟩
  have hd2 := fmt_d_byte_no_newline ⟨c2, by omega⟩
  obtain ⟨hn, hp, hd, ho⟩ := record_text_inj _ _ _ _ _ _ _ _ (not_mem_of_ne_newline _ hn1)
    (not_mem_of_ne_newline _ hn2) (not_mem_of_ne_newline _ hp1) (not_mem_of_ne_newline _ hp2)
    hd1 hd2 h
  refine ⟨⟨hn, hp, ?_, ho⟩, ?_⟩
  · rw [hr1, hr2, he1, he2]
    have ha1 := atoi_fmt_d_byte ⟨c1, by omega⟩
    have ha2 := atoi_fmt_d_byte ⟨c2, by omega⟩
    simp only at ha1 ha2
    rw [← ha1, ← ha2, hd]
  · simp only [log_lines, List.getLast?_cons_cons, List.getLast?_singleton,
      fmt_s_of_no_nul _ ho1]

set_option maxRecDepth 8192 in
theorem log_record_round_trip_witness :
    logged demo_manager (demo_env (failing_child [ascii "boom"])) 0 ∧
      (log_lines (demo_manager.script 0)
          (script_manager_execute demo_manager (demo_env (failing_child [ascii "boom"])) 0 true
            none).ret
          (script_manager_execute demo_manager (demo_env (failing_child [ascii "boom"])) 0 true
            none).output_buffer).getLast? =
        some (ascii "Output:\n" ++
          (script_manager_execute demo_manager (demo_env (failing_child [ascii "boom"])) 0 true
            none).output_buffer ++ ascii "\n") :=
  ⟨by decide, (log_record_round_trip demo_manager demo_manager
    (demo_env (failing_child [ascii "boom"])) (demo_env (failing_child [ascii "boom"])) 0 0 true
    none none (by decide) (by decide) (by decide) (by decide) (by decide) (by decide) (by decide)
    (by decide) rfl).2⟩

/-! ## Lemmas on the log path -/

theorem fopen_event_launched (st : Manager) (env : Env) (index : Int) (cb : Bool)
    (params : Option (List Byte)) (p : List Byte) (ok : Bool)
    (h : Event.fopen p ok ∈ (script_manager_execute st env index cb params).events) :
    launched st env index := by
  by_cases hv : 0 ≤ index ∧ index < (st.script_count : Int)
  · by_contra hl
    have hidx : ¬ (index < 0 ∨ index ≥ (st.script_count : Int)) := by omega
    unfold script_manager_execute at h
    rw [if_neg hidx] at h
    dsimp only at h
    rcases not_launched_cases st env index hv hl with h1 | h1 | h1
    · simp [h1] at h
    · cases h2 : env.pipe_output <;> simp [h1, h2] at h
    · cases h2 : env.pipe_output <;> cases h3 : env.pipe_progress <;> simp [h1, h2, h3] at h
  · have hbad : index < 0 ∨ index ≥ (st.script_count : Int) := by omega
    rw [execute_invalid_index st env index cb params hbad] at h
    cases h

theorem fopen_event_path (st : Manager) (env : Env) (index : Int) (cb : Bool)
    (params : Option (List Byte)) (p : List Byte) (ok : Bool)
    (h : Event.fopen p ok ∈ (script_manager_execute st env index cb params).events) :
    p = log_path st.log_dir (strftime env.now) (safe_name (st.script index).name) := by
  have hl := fopen_event_launched st env index cb params p ok h
  rw [execute_events st env index cb params hl] at h
  simp only [List.mem_append, List.mem_cons, List.mem_singleton, List.not_mem_nil, or_false,
    reduceCtorEq, false_or] at h
  by_cases hex : exit_code_of env.child.status ≠ 0
  · rw [if_pos hex] at h
    unfold write_log at h
    dsimp only at h
    split at h
    · split at h
      · simp only [List.mem_append, List.mem_cons, List.mem_singleton, List.mem_map,
          List.not_mem_nil, or_false, reduceCtorEq, false_or, Event.fopen.injEq, and_false,
          exists_false] at h
        exact h.1
      · simp only [List.mem_cons, List.mem_singleton, List.not_mem_nil, or_false, reduceCtorEq,
          false_or, Event.fopen.injEq] at h
        exact h.1
    · simp at h
  · rw [if_neg hex] at h
    cases h

theorem safe_name_length (name : List Byte) : (safe_name name).length = min name.length 30 := by
  simp [safe_name, Nat.min_comm]

theorem safe_name_getElem (name : List Byte) (i : Nat) (hi : i < (safe_name name).length) :
    (safe_name name)[i]? = (name[i]?).map (fun c => if isalnum c then c else 95) := by
  rw [safe_name_length] at hi
  have h30 : i < 30 := by omega
  simp [safe_name, List.getElem?_take, h30]

theorem safe_name_chars (name : List Byte) :
    ∀ c ∈ safe_name name, isalnum c = true ∨ c = 95 := by
  intro c hc
  simp only [safe_name, List.mem_map] at hc
  obtain ⟨a, _, rfl⟩ := hc
  by_cases ha : isalnum a = true
  · simp [ha]
  · simp [ha]

theorem digit_byte_isdigit :
    ∀ d : Fin 10, isdigit (Fin.ofNat (Nat.digitChar d.val).toNat) = true := by
  decide

theorem pad2_isdigit (n : Nat) : ∀ c ∈ pad2 n, isdigit c = true := by
  intro c hc
  simp only [pad2, List.mem_cons, List.mem_singleton, List.not_mem_nil, or_false] at hc
  have h1 : n / 10 % 10 < 10 := Nat.mod_lt _ (by decide)
  have h2 : n % 10 < 10 := Nat.mod_lt _ (by decide)
  have key : ∀ d : Fin 10, isdigit (Fin.ofNat (48 + d.val)) = true := by decide
  rcases hc with rfl | rfl
  · exact key ⟨n / 10 % 10, h1⟩
  · exact key ⟨n % 10, h2⟩

theorem toDigitsCore_step (fuel n : Nat) (ds : List Char) :
    Nat.toDigitsCore 10 (fuel + 1) n ds =
      if n / 10 = 0 then Nat.digitChar (n % 10) :: ds
      else Nat.toDigitsCore 10 fuel (n / 10) (Nat.digitChar (n % 10) :: ds) := by
  rfl

theorem toDigits_four (n : Nat) (h1 : 1000 ≤ n) (h2 : n ≤ 9999) :
    Nat.toDigits 10 n =
      [Nat.digitChar (n / 1000 % 10), Nat.digitChar (n / 100 % 10), Nat.digitChar (n / 10 % 10),
        Nat.digitChar (n % 10)] := by
  have e1 : n / 10 ≠ 0 := by omega
  have e2 : n / 10 / 10 ≠ 0 := by omega
  have e3 : n / 10 / 10 / 10 ≠ 0 := by omega
  have e4 : n / 10 / 10 / 10 / 10 = 0 := by omega
  have d2 : n / 10 / 10 = n / 100 := by omega
  have d3 : n / 10 / 10 / 10 = n / 1000 := by omega
  obtain ⟨f, hf⟩ : ∃ f, n + 1 = f + 1 + 1 + 1 + 1 := ⟨n - 3, by omega⟩
  rw [Nat.toDigits, hf, toDigitsCore_step, if_neg e1, toDigitsCore_step, if_neg e2,
    toDigitsCore_step, if_neg e3, toDigitsCore_step, if_pos e4, d3, d2]

theorem fmt_d_year (n : Nat) (h1 : 1000 ≤ n) (h2 : n ≤ 9999) :
    (fmt_d (n : Int)).length = 4 ∧ ∀ c ∈ fmt_d (n : Int), isdigit c = true := by
  have hf : fmt_d (n : Int) = (Nat.toDigits 10 n).map (fun c => Fin.ofNat c.toNat) := rfl
  rw [hf, toDigits_four n h1 h2]
  refine ⟨rfl, ?_⟩
  intro c hc
  simp only [List.map_cons, List.map_nil, List.mem_cons, List.mem_singleton, List.not_mem_nil,
    or_false] at hc
  rcases hc with rfl | rfl | rfl | rfl
  · exact digit_byte_isdigit ⟨n / 1000 % 10, Nat.mod_lt _ (by decide)⟩
  · exact digit_byte_isdigit ⟨n / 100 % 10, Nat.mod_lt _ (by decide)⟩
  · exact digit_byte_isdigit ⟨n / 10 % 10, Nat.mod_lt _ (by decide)⟩
  · exact digit_byte_isdigit ⟨n % 10, Nat.mod_lt _ (by decide)⟩

theorem strftime_shape (tm : Tm) (h : tm.wf) :
    ∃ d t : List Byte, strftime tm = d ++ ascii "_" ++ t ∧ d.length = 8 ∧ t.length = 6 ∧
      (∀ c ∈ d, isdigit c = true) ∧ ∀ c ∈ t, isdigit c = true := by
  obtain ⟨hy, _⟩ := h
  obtain ⟨hlen, hdig⟩ := fmt_d_year (1900 + tm.tm_year) (by omega) (by omega)
  refine ⟨fmt_d ((1900 + tm.tm_year : Nat) : Int) ++ pad2 (tm.tm_mon + 1) ++ pad2 tm.tm_mday,
    pad2 tm.tm_hour ++ pad2 tm.tm_min ++ pad2 tm.tm_sec, ?_, ?_, ?_, ?_, ?_⟩
  · simp only [strftime, List.append_assoc]
  · simp only [List.length_append, hlen, pad2, List.length_cons, List.length_nil]
  · simp only [List.length_append, pad2, List.length_cons, List.length_nil]
  · intro c hc
    simp only [List.mem_append] at hc
    rcases hc with (hc | hc) | hc
    · exact hdig c hc
    · exact pad2_isdigit _ c hc
    · exact pad2_isdigit _ c hc
  · intro c hc
    simp only [List.mem_append] at hc
    rcases hc with (hc | hc) | hc <;> exact pad2_isdigit _ c hc

/-! ## The log path (C13, C14) -/

/-- C13: every path the log block builds and passes to `fopen` equals
`log_dir`, `/`, the timestamp, `_`, the sanitized name `s` and `.log`, where
`s` has length min(length(name), 30), `s[i]` is `name[i]` when that byte is an
ASCII letter or digit and `_` otherwise, so `s` holds only alphanumeric
bytes and underscores; for a clock reading in range the timestamp is eight
digits, `_`, six digits (YYYYMMDD_HHMMSS); and a path returned by
`script_manager_get_log_file` afterwards is that path. -/
theorem log_path_built (st : Manager) (env : Env) (index : Int) (cb : Bool)
    (params : Option (List Byte)) (p : List Byte) (ok : Bool)
    (h : Event.fopen p ok ∈ (script_manager_execute st env index cb params).events) :
    p = st.log_dir ++ ascii "/" ++ strftime env.now ++ ascii "_" ++
        safe_name (st.script index).name ++ ascii ".log" ∧
      (safe_name (st.script index).name).length = min (st.script index).name.length 30 ∧
      (∀ i, i < (safe_name (st.script index).name).length →
        (safe_name (st.script index).name)[i]? =
          ((st.script index).name[i]?).map (fun c => if isalnum c then c else 95)) ∧
      (∀ c ∈ safe_name (st.script index).name, isalnum c = true ∨ c = 95) ∧
      (env.now.wf → ∃ d t : List Byte, strftime env.now = d ++ ascii "_" ++ t ∧
        d.length = 8 ∧ t.length = 6 ∧ (∀ c ∈ d, isdigit c = true) ∧
        ∀ c ∈ t, isdigit c = true) ∧
      ∀ q, script_manager_get_log_file (script_manager_execute st env index cb params).st
        = some q → q = p := by
  have hp := fopen_event_path st env index cb params p ok h
  have hl := fopen_event_launched st env index cb params p ok h
  refine ⟨hp, safe_name_length _, fun i hi => safe_name_getElem _ i hi, safe_name_chars _,
    strftime_shape env.now, ?_⟩
  intro q hq
  rw [get_log_file_some_iff st env index cb params q ⟨hl.1, hl.2.1⟩] at hq
  rw [hq.2, hp]

set_option maxRecDepth 8192 in
theorem log_path_built_witness :
    Event.fopen (ascii "/home/user/logs/20250312_130831_Hello_world.log") true ∈
        (script_manager_execute demo_manager (demo_env (failing_child [ascii "boom"])) 0 true
          none).events ∧
      ascii "/home/user/logs/20250312_130831_Hello_world.log" =
        demo_manager.log_dir ++ ascii "/" ++ strftime demo_tm ++ ascii "_" ++
          safe_name (demo_manager.script 0).name ++ ascii ".log" :=
  ⟨by decide, (log_path_built demo_manager (demo_env (failing_child [ascii "boom"])) 0 true none
    (ascii "/home/user/logs/20250312_130831_Hello_world.log") true (by decide)).1⟩

/-- C14: for every execution with a non-zero exit code,
`script_manager_get_log_file` exposes a path afterwards if and only if the
full path length (log directory, `/`, timestamp, `_`, sanitized name, `.log`)
is below `MAX_PATH_LENGTH` and the file could be opened for writing; the path
exposed is then that full path, and in every case the function returns the
child's exit code unchanged. -/
theorem log_path_exposed_iff (st : Manager) (env : Env) (index : Int) (cb : Bool)
    (params : Option (List Byte)) (h : launched st env index)
    (hex : exit_code_of env.child.status ≠ 0) :
    ((∃ p, script_manager_get_log_file (script_manager_execute st env index cb params).st
          = some p) ↔
        (log_path st.log_dir (strftime env.now) (safe_name (st.script index).name)).length
          < MAX_PATH_LENGTH ∧ env.fopen_ok = true) ∧
      (∀ p, script_manager_get_log_file (script_manager_execute st env index cb params).st
          = some p →
        p = log_path st.log_dir (strftime env.now) (safe_name (st.script index).name)) ∧
      (¬ ((log_path st.log_dir (strftime env.now) (safe_name (st.script index).name)).length
          < MAX_PATH_LENGTH ∧ env.fopen_ok = true) →
        script_manager_get_log_file (script_manager_execute st env index cb params).st = none) ∧
      (script_manager_execute st env index cb params).ret = exit_code_of env.child.status := by
  have hv : 0 ≤ index ∧ index < (st.script_count : Int) := ⟨h.1, h.2.1⟩
  have hiff : (∃ p, script_manager_get_log_file
      (script_manager_execute st env index cb params).st = some p) ↔
      (log_path st.log_dir (strftime env.now) (safe_name (st.script index).name)).length
        < MAX_PATH_LENGTH ∧ env.fopen_ok = true := by
    rw [log_path_length_eq]
    constructor
    · rintro ⟨p, hp⟩
      rw [get_log_file_some_iff st env index cb params p hv] at hp
      exact ⟨hp.1.2.2.1, hp.1.2.2.2⟩
    · rintro ⟨h1, h2⟩
      exact ⟨_, (get_log_file_some_iff st env index cb params _ hv).2 ⟨⟨h, hex, h1, h2⟩, rfl⟩⟩
  refine ⟨hiff, ?_, ?_, execute_ret st env index cb params h⟩
  · intro p hp
    exact ((get_log_file_some_iff st env index cb params p hv).1 hp).2
  · intro hno
    cases hg : script_manager_get_log_file (script_manager_execute st env index cb params).st with
    | none => rfl
    | some p => exact absurd (hiff.1 ⟨p, hg⟩) hno

set_option maxRecDepth 8192 in
theorem log_path_exposed_iff_witness :
    launched demo_manager (demo_env (failing_child [ascii "boom"])) 0 ∧
      exit_code_of (demo_env (failing_child [ascii "boom"])).child.status ≠ 0 ∧
      ((∃ p, script_manager_get_log_file (script_manager_execute demo_manager
          (demo_env (failing_child [ascii "boom"])) 0 true none).st = some p) ↔
        (log_path demo_manager.log_dir (strftime (demo_env (failing_child [ascii "boom"])).now)
          (safe_name (demo_manager.script 0).name)).length < MAX_PATH_LENGTH ∧
          (demo_env (failing_child [ascii "boom"])).fopen_ok = true) :=
  ⟨by decide, by decide, (log_path_exposed_iff demo_manager
    (demo_env (failing_child [ascii "boom"])) 0 true none (by decide) (by decide)).1⟩

/-! ## Lemmas on script discovery -/

theorem array_set_getD (a : List ScriptInfo) (i j : Nat) (x : ScriptInfo) :
    (array_set a i x).getD j ScriptInfo.empty =
      if j = i then x else a.getD j ScriptInfo.empty := by
  unfold array_set
  by_cases hi : i < a.length
  · rw [if_pos hi]
    simp only [List.getD_eq_getElem?_getD, List.getElem?_set]
    by_cases hji : j = i
    · subst hji
      simp [hi]
    · have hij : ¬ i = j := fun h => hji h.symm
      simp [hji, hij]
  · rw [if_neg hi]
    simp only [List.getD_eq_getElem?_getD]
    by_cases hji : j = i
    · subst hji
      rw [if_pos rfl, List.getElem?_append_right (by simp; omega)]
      have h0 : j - (a ++ List.replicate (j - a.length) ScriptInfo.empty).length = 0 := by
        simp only [List.length_append, List.length_replicate]
        omega
      rw [h0]
      rfl
    · rw [if_neg hji]
      by_cases hja : j < a.length
      · rw [List.append_assoc, List.getElem?_append_left hja]
      · have hnone : a[j]? = none := List.getElem?_eq_none (by omega)
        rw [hnone]
        by_cases hjlt : j < i
        · rw [List.getElem?_append_left (by simp; omega),
            List.getElem?_append_right (by omega), List.getElem?_replicate]
          have : j - a.length < i - a.length := by omega
          simp [this]
        · rw [List.getElem?_eq_none (by simp; omega)]

theorem scan_entries_wf (es : List DirEntry) (scripts : List ScriptInfo) (count : Nat)
    (h : ∀ i, i < count → (scripts.getD i ScriptInfo.empty).path ≠ []) :
    ∀ i, i < (scan_entries es (scripts, count)).2 →
      ((scan_entries es (scripts, count)).1.getD i ScriptInfo.empty).path ≠ [] := by
  induction es generalizing scripts count with
  | nil => exact h
  | cons e es ih =>
    unfold scan_entries
    split
    · split
      · exact ih scripts count h
      · split
        · exact ih scripts count h
        · split
          · exact ih scripts count h
          · split
            · apply ih
              intro i hi
              rw [array_set_getD]
              by_cases hic : i = count
              · rw [if_pos hic]
                have hne : script_dir ++ ascii "/" ++ e.d_name ≠ [] := by
                  simp [script_dir, ascii]
                intro hnil
                rw [List.take_eq_nil_iff] at hnil
                rcases hnil with h0 | h0
                · exact absurd h0 (by decide)
                · exact hne h0
              · rw [if_neg hic]
                exact h i (by omega)
            · exact ih scripts count h
    · exact h

theorem script_manager_init_wf (st : Manager) (env : InitEnv) (h : st.wf) :
    (script_manager_init st env).wf := by
  unfold script_manager_init
  cases hd : env.dir with
  | none => exact h
  | some entries =>
    intro i hi
    have hs := scan_entries_wf entries st.scripts 0 (fun j hj => absurd hj (Nat.not_lt_zero j))
      i hi
    simpa [Manager.script] using hs

theorem initial_manager_wf : initial_manager.wf := by
  decide

/-! ## Invalid selection (C15) -/

/-- C15: for every index with `index < 0` or `index >= script_count`,
`script_manager_execute` returns 1 without creating a channel, spawning a
process, calling the callback or changing the state; and, the script table
being as `script_manager_init` leaves it, `script_manager_get_by_index`
returns the empty descriptor for exactly those indices (its path is empty if
and only if the index is out of range) and the stored descriptor for every
index in `0..script_count-1`. -/
theorem invalid_selection_reported (st : Manager) (env : Env) (index : Int) (cb : Bool)
    (params : Option (List Byte)) (hwf : st.wf) :
    ((index < 0 ∨ index ≥ (st.script_count : Int)) →
        (script_manager_execute st env index cb params).ret = 1 ∧
        (script_manager_execute st env index cb params).events = [] ∧
        (script_manager_execute st env index cb params).calls = [] ∧
        (script_manager_execute st env index cb params).st = st ∧
        script_manager_get_by_index st index = ScriptInfo.empty) ∧
      ((0 ≤ index ∧ index < (st.script_count : Int)) →
        script_manager_get_by_index st index = st.script index) ∧
      ((script_manager_get_by_index st index).path = [] ↔
        (index < 0 ∨ index ≥ (st.script_count : Int))) := by
  refine ⟨?_, ?_, ?_⟩
  · intro hbad
    rw [execute_invalid_index st env index cb params hbad]
    refine ⟨rfl, rfl, rfl, rfl, ?_⟩
    unfold script_manager_get_by_index
    rw [if_neg (by omega)]
  · intro hv
    unfold script_manager_get_by_index
    rw [if_pos (by omega)]
  · unfold script_manager_get_by_index
    by_cases hv : index ≥ 0 ∧ index < (st.script_count : Int)
    · rw [if_pos hv]
      have hi := hwf index.toNat (by omega)
      rw [Int.toNat_of_nonneg hv.1] at hi
      constructor
      · intro h; exact absurd h hi
      · intro h; omega
    · rw [if_neg hv]
      constructor
      · intro _; omega
      · intro _; rfl

theorem invalid_selection_reported_witness :
    demo_manager.wf ∧
      (script_manager_execute demo_manager (demo_env (quiet_child 0)) 7 true none).ret = 1 ∧
      (script_manager_execute demo_manager (demo_env (quiet_child 0)) 7 true none).events = [] ∧
      (script_manager_execute demo_manager (demo_env (quiet_child 0)) 7 true none).calls = [] ∧
      (script_manager_execute demo_manager (demo_env (quiet_child 0)) 7 true none).st
        = demo_manager ∧
      script_manager_get_by_index demo_manager 7 = ScriptInfo.empty :=
  ⟨by decide, (invalid_selection_reported demo_manager (demo_env (quiet_child 0)) 7 true none
    (by decide)).1 (by decide)⟩

/-! ## No drain after termination (C16) -/

theorem strstr_no_dot (b : List Byte) (h : ∀ c ∈ b, c.val ≠ 46) :
    strstr (b ++ ascii ".sh") (ascii ".sh") = some b.length := by
  induction b with
  | nil => decide
  | cons c cs ih =>
    have hc : c.val ≠ 46 := h c (List.mem_cons_self c cs)
    have hne : c ≠ (46 : Byte) := fun he => hc (by rw [he]; rfl)
    have hp : (ascii ".sh").isPrefixOf (c :: (cs ++ ascii ".sh")) = false := by
      have e : ascii ".sh" = [46, 115, 104] := by decide
      rw [e]
      simp only [List.isPrefixOf, Bool.and_eq_false_imp, beq_iff_eq]
      intro he
      exact absurd he.symm hne
    show (if (ascii ".sh").isPrefixOf (c :: (cs ++ ascii ".sh")) then some 0
      else (strstr (cs ++ ascii ".sh") (ascii ".sh")).map (fun i => i + 1)) =
        some (cs.length + 1)
    rw [hp, ih (fun x hx => h x (List.mem_cons_of_mem c hx))]
    rfl

theorem extract_script_name_no_dot (b : List Byte) (h : ∀ c ∈ b, c.val ≠ 46) :
    extract_script_name (b ++ ascii ".sh") = spec_script_name (b ++ ascii ".sh") := by
  have hm : (b ++ ascii ".sh").map (fun c => if c.val = 95 then (32 : Byte) else c) =
      b.map (fun c => if c.val = 95 then (32 : Byte) else c) ++ ascii ".sh" := by
    rw [List.map_append]
    congr 1
  have hd : ∀ c ∈ b.map (fun c => if c.val = 95 then (32 : Byte) else c), c.val ≠ 46 := by
    intro c hc
    simp only [List.mem_map] at hc
    obtain ⟨a, ha, rfl⟩ := hc
    by_cases h95 : a.val = 95
    · simp only [h95, if_true]
      decide
    · simp only [h95, if_false]
      exact h a ha
  have hl : (ascii ".sh").length = 3 := by decide
  unfold extract_script_name spec_script_name
  simp only [hm, strstr_no_dot _ hd, List.length_map, List.take_left', List.length_append, hl,
    Nat.add_sub_cancel, List.take_left]

/-- C17, the code at a failing input: for the file name `my.shell_test.sh`,
which ends in `.sh` and which the directory scan accepts, the stored display
name is `My`, cut at the first `.sh`, where removing the trailing extension
gives `My.shell test`; for `hello_world.sh` both give `Hello world`. -/
theorem extract_script_name_cuts_at_first_sh :
    extract_script_name (ascii "my.shell_test.sh") = ascii "My" ∧
      spec_script_name (ascii "my.shell_test.sh") = ascii "My.shell test" ∧
      (script_manager_init initial_manager dotted_name_dir).scripts.map ScriptInfo.name
        = [ascii "My"] ∧
      extract_script_name (ascii "hello_world.sh") = ascii "Hello world" ∧
      spec_script_name (ascii "hello_world.sh") = ascii "Hello world" := by
  decide

/-! ## Range of the result (C18) -/

/-- C18: for every index, parameter string and behaviour of the environment
and of the child, the value returned by `script_manager_execute` lies in
0..255; it is never negative, so `ui_show_result` never takes its WARNING
branch for it. -/
theorem execute_result_range (st : Manager) (env : Env) (index : Int) (cb : Bool)
    (params : Option (List Byte)) :
    0 ≤ (script_manager_execute st env index cb params).ret ∧
      (script_manager_execute st env index cb params).ret ≤ 255 ∧
      ui_show_result (script_manager_execute st env index cb params).ret
        ≠ ResultKind.warning := by
  have hr : 0 ≤ (script_manager_execute st env index cb params).ret ∧
      (script_manager_execute st env index cb params).ret ≤ 255 := by
    by_cases hv : 0 ≤ index ∧ index < (st.script_count : Int)
    · by_cases hl : launched st env index
      · rw [execute_ret st env index cb params hl]
        obtain ⟨n, hn, he⟩ := exit_code_of_range env.child.status
        rw [he]
        omega
      · rw [(execute_launch_failure st env index cb params hv
          (not_launched_cases st env index hv hl)).1]
        split <;> decide
    · rw [execute_invalid_index st env index cb params (by omega)]
      dsimp only
      omega
  refine ⟨hr.1, hr.2, ?_⟩
  unfold ui_show_result
  split
  · decide
  · rw [if_neg (by omega)]
    decide

/-! ## Menu selection (C19) -/

theorem menu_key_in_range (n sel key : Int) (hs : 0 ≤ sel ∧ sel < n) :
    (∀ v, menu_key n sel key = MenuStep.ret v →
        (v = -1 ∧ (key = 113 ∨ key = 81 ∨ key = 3)) ∨ (0 ≤ v ∧ v < n)) ∧
      (∀ s, menu_key n sel key = MenuStep.next s → 0 ≤ s ∧ s < n) := by
  unfold menu_key
  refine ⟨?_, ?_⟩
  · intro v hv
    split_ifs at hv <;> simp only [MenuStep.ret.injEq, reduceCtorEq] at hv <;> omega
  · intro s hn
    split_ifs at hn <;> simp only [MenuStep.next.injEq, reduceCtorEq] at hn <;> omega

theorem menu_key_wraps (n : Int) :
    menu_key n 0 107 = MenuStep.next (n - 1) ∧ menu_key n (n - 1) 106 = MenuStep.next 0 := by
  unfold menu_key
  refine ⟨?_, ?_⟩
  · simp
  · simp

theorem menu_loop_range (n : Int) (fuel : Nat) (input : List Int) (sel v : Int)
    (hs : 0 ≤ sel ∧ sel < n) (h : menu_loop n fuel input sel = some v) :
    v = -1 ∨ (0 ≤ v ∧ v < n) := by
  induction fuel generalizing input sel with
  | zero => simp [menu_loop] at h
  | succ fuel ih =>
    unfold menu_loop at h
    cases hr : input_read_char input with
    | none => simp [hr] at h
    | some kr =>
      obtain ⟨key, rest⟩ := kr
      simp only [hr] at h
      cases hk : menu_key n sel key with
      | ret value =>
        simp only [hk, Option.some.injEq] at h
        subst h
        rcases (menu_key_in_range n sel key hs).1 value hk with h1 | h1
        · exact Or.inl h1.1
        · exact Or.inr h1
      | next s =>
        simp only [hk] at h
        exact ih rest s ((menu_key_in_range n sel key hs).2 s hk) h

/-- C19, the code at a failing input: with no script (the state
`script_manager_init` leaves for an empty scripts directory), the Up key moves
`current_selection` from 0 to `script_count - 1 = -1`, and Enter then returns
-1, the exit request, although no quit key was pressed; the same happens
with the arrow-up escape sequence followed by carriage return. -/
theorem menu_up_enter_on_empty_menu :
    script_manager_init initial_manager empty_dir = empty_manager ∧
      menu_key 0 0 107 = MenuStep.next (-1) ∧
      input_get_menu_selection empty_manager [107, 10] = some (-1) ∧
      input_get_menu_selection empty_manager [27, 91, 65, 13] = some (-1) := by
  decide

end ScriptManager
